import Mathlib

/-!
# Mosaic chart layout (`src/index.js`)

A shallow embedding of the user-side `mosaicChart` logic: the in-memory tree of
categories / subcategories, the public operations that mutate it, and
`_updateChart`, which recreates the rectangle figures from scratch.

Numbers are exact rationals.  Calls into the charting library that only style or
position ticks and labels are not part of the model; the rectangle series (the
figures added with `rectangles.add`, each with its fill style) is.

The first part takes every `subCategory` to be an object, named by its reference.  The
namespace `Raw` further down embeds the same code on any argument, `undefined` and
`null` included, with the TypeError that `_updateChart` then throws; on objects the two
agree (`raw_apply_toRaw`).
-/

namespace MosaicChart

/-! ## Data model -/

/-- Identity of a subCategory object (compared with `==` in the source). -/
abbrev Ref := Nat

/-- Fill styles of the charting library, kept abstract. -/
abbrev FillStyle := Nat

/-- Pixel sizes of the bottom and the right axis scale (`px` in `_updateChart`). -/
structure PixelSize where
  x : ℚ
  y : ℚ
deriving DecidableEq

/-- Argument of `rectangles.add`. -/
structure RectangleDimensions where
  x : ℚ
  y : ℚ
  width : ℚ
  height : ℚ
deriving DecidableEq

/-- Figure of the rectangle series: its dimensions and the fill style given to it
(`none` when the subCategory object has no `fillStyle`). -/
structure Figure where
  dimensions : RectangleDimensions
  fillStyle : Option FillStyle
deriving DecidableEq

/-- Entry of `category.subCategories`: `{ subCategory, value, label }`. -/
structure SubCategoryValue where
  subCategory : Ref
  value : ℚ
  label : Nat
deriving DecidableEq

/-- Object created by `addCategory`. -/
structure Category where
  name : String
  value : ℚ
  tick : Nat
  subCategories : List SubCategoryValue
deriving DecidableEq

/-- Object created by `addYCategory`. -/
structure YCategory where
  name : String
  value : ℚ
  tick : Nat
deriving DecidableEq

/-- Closure state of one `mosaicChart()`: the three lists, `margin`, the rectangle
series, the subCategory objects that exist (`heap[r]` is the `fillStyle` of the object
with identity `r`) and the number of UI elements (ticks, labels) created so far. -/
structure Chart where
  categories : List Category
  yCategories : List YCategory
  subCategories : List Ref
  margin : ℚ
  rectangles : List Figure
  heap : List FillStyle
  uiElements : Nat
deriving DecidableEq

/-- Value of `DefaultLibraryStyle.seriesFill`. -/
def seriesFill : FillStyle := 0

/-! ## `_updateChart` -/

/-- `categories.reduce((prev, cur) => prev + cur.value, 0)`. -/
def sumCategoryValues (categories : List Category) : ℚ :=
  categories.foldl (fun prev cur => prev + cur.value) 0

/-- `category.subCategories.reduce((prev, cur) => prev + cur.value, 0)`. -/
def sumSubCategoryValues (category : Category) : ℚ :=
  category.subCategories.foldl (fun prev cur => prev + cur.value) 0

/-- `100 * category.value / sumCategoryValues`. -/
def relativeCategoryValue (sum : ℚ) (category : Category) : ℚ :=
  100 * category.value / sum

/-- `100 * subCategory.value / sumSubCategoryValues`. -/
def relativeSubCategoryValue (sumSub : ℚ) (subCategory : SubCategoryValue) : ℚ :=
  100 * subCategory.value / sumSub

/-- The object literal `rectangleDimensions`. -/
def rectangleDimensions (margin : ℚ) (px : PixelSize) (xPos yPos relCat relSub : ℚ) :
    RectangleDimensions :=
  { x := xPos + margin * px.x
    y := yPos + margin * px.y
    width := relCat - 2 * margin * px.x
    height := relSub - 2 * margin * px.y }

/-- Body of `for (const subCategory of category.subCategories)`; the loop state is
`(yPos, rectangles)`. -/
def subCategoryStep (heap : List FillStyle) (margin : ℚ) (px : PixelSize)
    (xPos relCat sumSub : ℚ) (st : ℚ × List Figure) (subCategory : SubCategoryValue) :
    ℚ × List Figure :=
  let rel := relativeSubCategoryValue sumSub subCategory
  let rects :=
    if rel > 0 then
      st.2 ++ [{ dimensions := rectangleDimensions margin px xPos st.1 relCat rel
                 fillStyle := heap[subCategory.subCategory]? }]
    else st.2
  (st.1 + rel, rects)

/-- Body of `for (const category of categories)`; the loop state is
`(xPos, rectangles)`. -/
def categoryStep (heap : List FillStyle) (margin : ℚ) (px : PixelSize) (sum : ℚ)
    (st : ℚ × List Figure) (category : Category) : ℚ × List Figure :=
  let rel := relativeCategoryValue sum category
  let sumSub := sumSubCategoryValues category
  let rects :=
    if sumSub > 0 then
      (category.subCategories.foldl
        (subCategoryStep heap margin px st.1 rel sumSub) (0, st.2)).2
    else st.2
  (st.1 + rel, rects)

/-- The category loop of `_updateChart`, run from `xPos = 0` on the cleared series. -/
def categoryLoop (heap : List FillStyle) (margin : ℚ) (px : PixelSize) (sum : ℚ)
    (categories : List Category) : ℚ × List Figure :=
  categories.foldl (categoryStep heap margin px sum) (0, [])

/-- The rectangle series after `_updateChart()`. -/
def _updateChart (heap : List FillStyle) (margin : ℚ) (px : PixelSize)
    (categories : List Category) : List Figure :=
  let sum := sumCategoryValues categories
  if sum > 0 then (categoryLoop heap margin px sum categories).2 else []

/-- Value of `xPos` when the loop reaches the category at position `i`
(after the `i` categories inserted before it). -/
def xPosAt (heap : List FillStyle) (margin : ℚ) (px : PixelSize) (sum : ℚ)
    (categories : List Category) (i : Nat) : ℚ :=
  (categoryLoop heap margin px sum (categories.take i)).1

/-- Value of `yPos` when the inner loop of a category drawn at `xPos` reaches its
entry at position `j`. -/
def yPosAt (heap : List FillStyle) (margin : ℚ) (px : PixelSize) (xPos sum : ℚ)
    (category : Category) (j : Nat) : ℚ :=
  ((category.subCategories.take j).foldl
    (subCategoryStep heap margin px xPos (relativeCategoryValue sum category)
      (sumSubCategoryValues category)) (0, [])).1

/-! ## Public operations -/

/-- Apply `f` to the element at position `i`, if there is one. -/
def modifyAt {α : Type} (f : α → α) : List α → Nat → List α
  | [], _ => []
  | a :: l, 0 => f a :: l
  | a :: l, n + 1 => a :: modifyAt f l n

/-- The chart state with the rectangle series recreated. -/
def Chart.refresh (px : PixelSize) (c : Chart) : Chart :=
  { c with rectangles := _updateChart c.heap c.margin px c.categories }

/-- State of a fresh `mosaicChart()`; `heap` holds the objects that exist already. -/
def mosaicChart (heap : List FillStyle) : Chart :=
  { categories := [], yCategories := [], subCategories := [], margin := 4,
    rectangles := [], heap := heap, uiElements := 0 }

/-- `addSubCategory()`: a new object with the default fill, pushed on `subCategories`;
returns the state and the reference of the new object. -/
def addSubCategory (c : Chart) : Chart × Ref :=
  ({ c with heap := c.heap ++ [seriesFill]
            subCategories := c.subCategories ++ [c.heap.length] }, c.heap.length)

/-- `addCategory(name)`: a new category with value 0 and no subcategories; returns the
state and the position of the new category. -/
def addCategory (c : Chart) (name : String) : Chart × Nat :=
  ({ c with categories := c.categories ++
              [{ name := name, value := 0, tick := c.uiElements, subCategories := [] }]
            uiElements := c.uiElements + 1 }, c.categories.length)

/-- `addYCategory(name, value)`. -/
def addYCategory (c : Chart) (name : String) (value : ℚ) : Chart × Nat :=
  ({ c with yCategories := c.yCategories ++
              [{ name := name, value := value, tick := c.uiElements }]
            uiElements := c.uiElements + 1 }, c.yCategories.length)

/-- The assignment `this.value = value` of `setCategoryValue`. -/
def Category.setValue (value : ℚ) (category : Category) : Category :=
  { category with value := value }

/-- `category.setCategoryValue(value)` on the category at position `i`. -/
def setCategoryValue (px : PixelSize) (c : Chart) (i : Nat) (value : ℚ) : Chart :=
  Chart.refresh px { c with categories := modifyAt (Category.setValue value) c.categories i }

/-- `this.subCategories.find(a => a.subCategory == subCategory)`. -/
def findExisting (subCategory : Ref) (l : List SubCategoryValue) : Option SubCategoryValue :=
  l.find? (fun a => a.subCategory == subCategory)

/-- The assignment `existing.value = value`, `existing` being the first entry of the list
whose `subCategory` is the given one. -/
def assignExisting (subCategory : Ref) (value : ℚ) :
    List SubCategoryValue → List SubCategoryValue
  | [] => []
  | a :: l =>
    if a.subCategory = subCategory then { a with value := value } :: l
    else a :: assignExisting subCategory value l

/-- The list part of `setSubCategoryValue`: overwrite the value of the entry that `find`
returns, or push a new entry (with the new `label`) when it returns `undefined`. -/
def setSubCategoryValueList (subCategory : Ref) (value : ℚ) (label : Nat)
    (l : List SubCategoryValue) : List SubCategoryValue :=
  match findExisting subCategory l with
  | some _ => assignExisting subCategory value l
  | none => l ++ [{ subCategory := subCategory, value := value, label := label }]

/-- The effect of `setSubCategoryValue` on the category object. -/
def Category.setSubCategoryValue (subCategory : Ref) (value : ℚ) (label : Nat)
    (category : Category) : Category :=
  { category with
    subCategories := setSubCategoryValueList subCategory value label category.subCategories }

/-- `category.setSubCategoryValue(subCategory, value)` on the category at position `i`,
`subCategory` being an object. -/
def setSubCategoryValue (px : PixelSize) (c : Chart) (i : Nat) (subCategory : Ref)
    (value : ℚ) : Chart :=
  let isNew := ((c.categories[i]?).bind (fun k => findExisting subCategory k.subCategories)).isNone
  Chart.refresh px
    { c with
      categories :=
        modifyAt (Category.setSubCategoryValue subCategory value c.uiElements) c.categories i
      uiElements := if isNew then c.uiElements + 1 else c.uiElements }

/-- `subCategory.setFillStyle(fillStyle)` on the object with reference `r`: the object
gets the fill style, and the `_updateChart` that runs is the one of the chart that
created the object. For an object that this chart did not create (it is not in
`subCategories`) the series of this chart is left as it is. -/
def setFillStyle (px : PixelSize) (c : Chart) (r : Ref) (fillStyle : FillStyle) : Chart :=
  if r ∈ c.subCategories then
    Chart.refresh px { c with heap := modifyAt (fun _ => fillStyle) c.heap r }
  else { c with heap := modifyAt (fun _ => fillStyle) c.heap r }

/-- The assignment `this.value = value` of `setCategoryYValue`. -/
def YCategory.setValue (value : ℚ) (y : YCategory) : YCategory :=
  { y with value := value }

/-- `yCategory.setCategoryYValue(value)` on the y-category at position `k`. -/
def setCategoryYValue (px : PixelSize) (c : Chart) (k : Nat) (value : ℚ) : Chart :=
  Chart.refresh px { c with yCategories := modifyAt (YCategory.setValue value) c.yCategories k }

/-! ## The chart as a state machine -/

/-- The public operations: the three methods of the chart and the setters of the
objects they return (a category and a y-category are named by their position, a
subCategory object by its reference). -/
inductive Operation where
  | addCategory (name : String)
  | addSubCategory
  | addYCategory (name : String) (value : ℚ)
  | setCategoryValue (i : Nat) (value : ℚ)
  | setSubCategoryValue (i : Nat) (subCategory : Ref) (value : ℚ)
  | setFillStyle (r : Ref) (fillStyle : FillStyle)
  | setCategoryYValue (k : Nat) (value : ℚ)
deriving DecidableEq

/-- The state after an operation. -/
def Operation.apply (px : PixelSize) (c : Chart) : Operation → Chart
  | .addCategory name => (MosaicChart.addCategory c name).1
  | .addSubCategory => (MosaicChart.addSubCategory c).1
  | .addYCategory name value => (MosaicChart.addYCategory c name value).1
  | .setCategoryValue i value => MosaicChart.setCategoryValue px c i value
  | .setSubCategoryValue i s value => MosaicChart.setSubCategoryValue px c i s value
  | .setFillStyle r fillStyle => MosaicChart.setFillStyle px c r fillStyle
  | .setCategoryYValue k value => MosaicChart.setCategoryYValue px c k value

/-- An operation that a caller can perform in state `c`: a setter is called on an object
that the chart returned, and a subCategory argument is an object that exists. -/
def Operation.admissible (c : Chart) : Operation → Bool
  | .addCategory _ => true
  | .addSubCategory => true
  | .addYCategory _ _ => true
  | .setCategoryValue i _ => decide (i < c.categories.length)
  | .setSubCategoryValue i s _ => decide (i < c.categories.length) && decide (s < c.heap.length)
  | .setFillStyle r _ => decide (r ∈ c.subCategories)
  | .setCategoryYValue k _ => decide (k < c.yCategories.length)

/-- States that a chart goes through, the pixel sizes being fixed. -/
inductive Reachable (px : PixelSize) : Chart → Prop where
  | init (heap : List FillStyle) : Reachable px (mosaicChart heap)
  | step (c : Chart) (op : Operation) :
      Reachable px c → op.admissible c = true → Reachable px (op.apply px c)

/-! ## Example usage -/

/-- Pixel sizes used to evaluate the example (one pixel is a tenth of an axis unit). -/
def examplePx : PixelSize := { x := 1 / 10, y := 1 / 10 }

/-- The category 'With caffeine' of the example usage; the subCategory objects are
0 (exhaust), 1 (no effect) and 2 (refresh). -/
def withCaffeine : Category :=
  { name := "With caffeine", value := 48, tick := 3,
    subCategories := [⟨0, 25, 4⟩, ⟨1, 35, 5⟩, ⟨2, 40, 6⟩] }

/-- The category 'Decaffeinated' of the example usage. -/
def decaffeinated : Category :=
  { name := "Decaffeinated", value := 32, tick := 7,
    subCategories := [⟨0, 10, 8⟩, ⟨1, 45, 9⟩, ⟨2, 45, 10⟩] }

/-- The category 'Placebo product' of the example usage. -/
def placeboProduct : Category :=
  { name := "Placebo product", value := 20, tick := 11,
    subCategories := [⟨0, 20, 12⟩, ⟨1, 50, 13⟩, ⟨2, 30, 14⟩] }

/-- The three categories of the example usage, in insertion order. -/
def exampleCategories : List Category := [withCaffeine, decaffeinated, placeboProduct]

/-- The fill styles of the three subCategory objects of the example. -/
def exampleHeap : List FillStyle := [1, 2, 3]

/-- The example usage at the end of the source, operation by operation; the three fill
styles are 1 (red), 2 (yellow) and 3 (green). -/
def exampleUsage (px : PixelSize) : Chart :=
  let c := mosaicChart []
  let c := (addYCategory c "Refreshed" 80).1
  let c := (addYCategory c "No Effect" 40).1
  let c := (addYCategory c "Caused Exhaustion" 12).1
  let exhaust := (addSubCategory c).2
  let c := setFillStyle px (addSubCategory c).1 exhaust 1
  let noEffect := (addSubCategory c).2
  let c := setFillStyle px (addSubCategory c).1 noEffect 2
  let refresh := (addSubCategory c).2
  let c := setFillStyle px (addSubCategory c).1 refresh 3
  let k := (addCategory c "With caffeine").2
  let c := setCategoryValue px (addCategory c "With caffeine").1 k 48
  let c := setSubCategoryValue px c k exhaust 25
  let c := setSubCategoryValue px c k noEffect 35
  let c := setSubCategoryValue px c k refresh 40
  let k := (addCategory c "Decaffeinated").2
  let c := setCategoryValue px (addCategory c "Decaffeinated").1 k 32
  let c := setSubCategoryValue px c k exhaust 10
  let c := setSubCategoryValue px c k noEffect 45
  let c := setSubCategoryValue px c k refresh 45
  let k := (addCategory c "Placebo product").2
  let c := setCategoryValue px (addCategory c "Placebo product").1 k 20
  let c := setSubCategoryValue px c k exhaust 20
  let c := setSubCategoryValue px c k noEffect 50
  let c := setSubCategoryValue px c k refresh 30
  c

/-- A chart in which the second category has value zero and an entry of value 1:
`addSubCategory`, then category A with value 1 and an entry of value 1, then category B
with the same entry and its value left at 0. -/
def zeroShareChart : Chart :=
  let c := mosaicChart []
  let s := (addSubCategory c).2
  let c := (addSubCategory c).1
  let a := (addCategory c "A").2
  let c := setCategoryValue examplePx (addCategory c "A").1 a 1
  let c := setSubCategoryValue examplePx c a s 1
  let b := (addCategory c "B").2
  let c := setSubCategoryValue examplePx (addCategory c "B").1 b s 1
  c

/-- A chart that never called `addSubCategory`, with one category of value 1; the object
with reference 0 (fill style 7) exists but does not belong to the chart. -/
def foreignChart : Chart :=
  let c := mosaicChart [7]
  let a := (addCategory c "A").2
  setCategoryValue examplePx (addCategory c "A").1 a 1

/-- A category with a negative subcategory value: entries 3 and -1, which sum to 2. -/
def negativeEntryCategory : Category :=
  { name := "A", value := 1, tick := 0, subCategories := [⟨0, 3, 1⟩, ⟨1, -1, 2⟩] }

/-- A chart with two categories of value 1, each with one entry, drawn with the example
pixel sizes. -/
def twoColumns : Chart :=
  Chart.refresh examplePx
    { mosaicChart [seriesFill] with
      categories := [ { name := "A", value := 1, tick := 0, subCategories := [⟨0, 1, 1⟩] },
                      { name := "B", value := 1, tick := 2, subCategories := [⟨0, 1, 3⟩] } ]
      subCategories := [0]
      uiElements := 4 }

/-! ## What the loops add, and the layout of the specification -/

/-- Figures that the inner loop body adds for one entry when `yPos` is the cursor. -/
def entryFigures (heap : List FillStyle) (margin : ℚ) (px : PixelSize)
    (xPos relCat sumSub yPos : ℚ) (e : SubCategoryValue) : List Figure :=
  if relativeSubCategoryValue sumSub e > 0 then
    [{ dimensions := rectangleDimensions margin px xPos yPos relCat
        (relativeSubCategoryValue sumSub e)
       fillStyle := heap[e.subCategory]? }]
  else []

/-- Figures that the outer loop body adds for one category when `xPos` is the cursor. -/
def categoryFigures (heap : List FillStyle) (margin : ℚ) (px : PixelSize) (sum xPos : ℚ)
    (c : Category) : List Figure :=
  if sumSubCategoryValues c > 0 then
    c.subCategories.enum.flatMap (fun p =>
      entryFigures heap margin px xPos (relativeCategoryValue sum c) (sumSubCategoryValues c)
        (((c.subCategories.take p.1).map
          (relativeSubCategoryValue (sumSubCategoryValues c))).sum) p.2)
  else []

/-- The layout in the words of the specification: one rectangle for each entry with
positive share `100 * subValue / T` in each category with `T > 0`, at
`X + margin * px.x`, `Y + margin * px.y`, where `X` is the sum of `100 * value / S` over
the categories before it and `Y` the sum of `100 * subValue / T` over the entries before
it in its category. -/
def layoutSpec (heap : List FillStyle) (margin : ℚ) (px : PixelSize)
    (categories : List Category) : List Figure :=
  let S := (categories.map (fun c => c.value)).sum
  categories.enum.flatMap (fun ic =>
    let T := (ic.2.subCategories.map (fun e => e.value)).sum
    let X := ((categories.take ic.1).map (fun k => 100 * k.value / S)).sum
    if T > 0 then
      ic.2.subCategories.enum.flatMap (fun je =>
        let Y := ((ic.2.subCategories.take je.1).map (fun d => 100 * d.value / T)).sum
        if 100 * je.2.value / T > 0 then
          [{ dimensions :=
              { x := X + margin * px.x
                y := Y + margin * px.y
                width := 100 * ic.2.value / S - 2 * margin * px.x
                height := 100 * je.2.value / T - 2 * margin * px.y }
             fillStyle := heap[je.2.subCategory]? }]
        else [])
    else [])

/-! ## Invariants of the chart state -/

/-- Every entry refers to an object that exists. -/
def RefsExist (c : Chart) : Prop :=
  ∀ k ∈ c.categories, ∀ e ∈ k.subCategories, e.subCategory < c.heap.length

/-- The series is what `_updateChart` computes from the current state. -/
def UpToDate (px : PixelSize) (c : Chart) : Prop :=
  c.rectangles = _updateChart c.heap c.margin px c.categories

/-! ## The same code on any `subCategory` argument

The definitions above take the `subCategory` of an entry to be an object.  A caller can
also pass `undefined` or `null`: the entry is stored all the same, and `_updateChart`
throws a TypeError at `subCategory.subCategory.fillStyle`, after `rectangles.add`, when
it comes to draw that entry.  The namespace `Raw` embeds the code with that path: an
entry holds whatever was passed, and a call returns the state it leaves together with
whether it threw.
-/

namespace Raw

/-- What a caller passes as `subCategory`: `undefined` or `null` (the two are equal under
`==` and both throw on a property access), or an object. -/
inductive Argument where
  | nullish
  | object (r : Ref)
deriving DecidableEq

/-- Figure of the rectangle series: added and given its fill style, or added only
(the TypeError was thrown before `setFillStyle` was reached). -/
inductive Figure where
  | styled (figure : MosaicChart.Figure)
  | unstyled (dimensions : RectangleDimensions)
deriving DecidableEq

/-- Entry of `category.subCategories`: `{ subCategory, value, label }`. -/
structure SubCategoryValue where
  subCategory : Argument
  value : ℚ
  label : Nat
deriving DecidableEq

/-- Object created by `addCategory`. -/
structure Category where
  name : String
  value : ℚ
  tick : Nat
  subCategories : List SubCategoryValue
deriving DecidableEq

/-- Closure state of one `mosaicChart()`. -/
structure Chart where
  categories : List Category
  yCategories : List YCategory
  subCategories : List Ref
  margin : ℚ
  rectangles : List Figure
  heap : List FillStyle
  uiElements : Nat
deriving DecidableEq

/-- Result of a call: the state it leaves, and whether it threw a TypeError instead of
returning. -/
structure Outcome where
  chart : Chart
  typeError : Bool
deriving DecidableEq

/-- `categories.reduce((prev, cur) => prev + cur.value, 0)`. -/
def sumCategoryValues (categories : List Category) : ℚ :=
  categories.foldl (fun prev cur => prev + cur.value) 0

/-- `category.subCategories.reduce((prev, cur) => prev + cur.value, 0)`. -/
def sumSubCategoryValues (category : Category) : ℚ :=
  category.subCategories.foldl (fun prev cur => prev + cur.value) 0

/-- Body of `for (const subCategory of category.subCategories)` on the loop state
`(yPos, rectangles)`: the next state, or `Except.error` with the series as it is when
the TypeError is thrown. -/
def subCategoryStep (heap : List FillStyle) (margin : ℚ) (px : PixelSize)
    (xPos relCat sumSub : ℚ) (st : ℚ × List Figure) (subCategory : SubCategoryValue) :
    Except (List Figure) (ℚ × List Figure) :=
  let rel := 100 * subCategory.value / sumSub
  if rel > 0 then
    match subCategory.subCategory with
    | .nullish =>
      Except.error (st.2 ++ [Figure.unstyled (rectangleDimensions margin px xPos st.1 relCat rel)])
    | .object r =>
      Except.ok (st.1 + rel,
        st.2 ++ [Figure.styled
          { dimensions := rectangleDimensions margin px xPos st.1 relCat rel
            fillStyle := heap[r]? }])
  else Except.ok (st.1 + rel, st.2)

/-- The loop `for (const subCategory of category.subCategories)`, which stops at the
first TypeError. -/
def subCategoryLoop (heap : List FillStyle) (margin : ℚ) (px : PixelSize)
    (xPos relCat sumSub : ℚ) :
    ℚ × List Figure → List SubCategoryValue → Except (List Figure) (ℚ × List Figure)
  | st, [] => Except.ok st
  | st, e :: es =>
    match subCategoryStep heap margin px xPos relCat sumSub st e with
    | Except.ok next => subCategoryLoop heap margin px xPos relCat sumSub next es
    | Except.error series => Except.error series

/-- Body of `for (const category of categories)` on the loop state `(xPos, rectangles)`. -/
def categoryStep (heap : List FillStyle) (margin : ℚ) (px : PixelSize) (sum : ℚ)
    (st : ℚ × List Figure) (category : Category) : Except (List Figure) (ℚ × List Figure) :=
  let rel := 100 * category.value / sum
  let sumSub := sumSubCategoryValues category
  if sumSub > 0 then
    match subCategoryLoop heap margin px st.1 rel sumSub (0, st.2) category.subCategories with
    | Except.ok inner => Except.ok (st.1 + rel, inner.2)
    | Except.error series => Except.error series
  else Except.ok (st.1 + rel, st.2)

/-- The loop `for (const category of categories)`, which stops at the first TypeError. -/
def categoryLoop (heap : List FillStyle) (margin : ℚ) (px : PixelSize) (sum : ℚ) :
    ℚ × List Figure → List Category → Except (List Figure) (ℚ × List Figure)
  | st, [] => Except.ok st
  | st, c :: cs =>
    match categoryStep heap margin px sum st c with
    | Except.ok next => categoryLoop heap margin px sum next cs
    | Except.error series => Except.error series

/-- The call `_updateChart()`: the rectangle series it leaves, and whether it threw. -/
def _updateChart (heap : List FillStyle) (margin : ℚ) (px : PixelSize)
    (categories : List Category) : List Figure × Bool :=
  let sum := sumCategoryValues categories
  if sum > 0 then
    match categoryLoop heap margin px sum (0, []) categories with
    | Except.ok st => (st.2, false)
    | Except.error series => (series, true)
  else ([], false)

/-- A setter's call of `_updateChart()` in state `c`; when it throws, the setter does too. -/
def Chart.refresh (px : PixelSize) (c : Chart) : Outcome :=
  { chart := { c with rectangles := (_updateChart c.heap c.margin px c.categories).1 }
    typeError := (_updateChart c.heap c.margin px c.categories).2 }

/-- State of a fresh `mosaicChart()`; `heap` holds the objects that exist already. -/
def mosaicChart (heap : List FillStyle) : Chart :=
  { categories := [], yCategories := [], subCategories := [], margin := 4,
    rectangles := [], heap := heap, uiElements := 0 }

/-- `addSubCategory()`. -/
def addSubCategory (c : Chart) : Chart × Ref :=
  ({ c with heap := c.heap ++ [seriesFill]
            subCategories := c.subCategories ++ [c.heap.length] }, c.heap.length)

/-- `addCategory(name)`. -/
def addCategory (c : Chart) (name : String) : Chart × Nat :=
  ({ c with categories := c.categories ++
              [{ name := name, value := 0, tick := c.uiElements, subCategories := [] }]
            uiElements := c.uiElements + 1 }, c.categories.length)

/-- `addYCategory(name, value)`. -/
def addYCategory (c : Chart) (name : String) (value : ℚ) : Chart × Nat :=
  ({ c with yCategories := c.yCategories ++
              [{ name := name, value := value, tick := c.uiElements }]
            uiElements := c.uiElements + 1 }, c.yCategories.length)

/-- The assignment `this.value = value` of `setCategoryValue`. -/
def Category.setValue (value : ℚ) (category : Category) : Category :=
  { category with value := value }

/-- `category.setCategoryValue(value)` on the category at position `i`. -/
def setCategoryValue (px : PixelSize) (c : Chart) (i : Nat) (value : ℚ) : Outcome :=
  Chart.refresh px { c with categories := modifyAt (Category.setValue value) c.categories i }

/-- `this.subCategories.find(a => a.subCategory == subCategory)`. -/
def findExisting (subCategory : Argument) (l : List SubCategoryValue) :
    Option SubCategoryValue :=
  l.find? (fun a => a.subCategory == subCategory)

/-- The assignment `existing.value = value`, `existing` being the first entry of the list
whose `subCategory` is the given one. -/
def assignExisting (subCategory : Argument) (value : ℚ) :
    List SubCategoryValue → List SubCategoryValue
  | [] => []
  | a :: l =>
    if a.subCategory = subCategory then { a with value := value } :: l
    else a :: assignExisting subCategory value l

/-- The list part of `setSubCategoryValue`. -/
def setSubCategoryValueList (subCategory : Argument) (value : ℚ) (label : Nat)
    (l : List SubCategoryValue) : List SubCategoryValue :=
  match findExisting subCategory l with
  | some _ => assignExisting subCategory value l
  | none => l ++ [{ subCategory := subCategory, value := value, label := label }]

/-- The effect of `setSubCategoryValue` on the category object. -/
def Category.setSubCategoryValue (subCategory : Argument) (value : ℚ) (label : Nat)
    (category : Category) : Category :=
  { category with
    subCategories := setSubCategoryValueList subCategory value label category.subCategories }

/-- `category.setSubCategoryValue(subCategory, value)` on the category at position `i`:
the entry is stored first, then `_updateChart()` runs. -/
def setSubCategoryValue (px : PixelSize) (c : Chart) (i : Nat) (subCategory : Argument)
    (value : ℚ) : Outcome :=
  let isNew := ((c.categories[i]?).bind (fun k => findExisting subCategory k.subCategories)).isNone
  Chart.refresh px
    { c with
      categories :=
        modifyAt (Category.setSubCategoryValue subCategory value c.uiElements) c.categories i
      uiElements := if isNew then c.uiElements + 1 else c.uiElements }

/-- `subCategory.setFillStyle(fillStyle)` on the object with reference `r`; the
`_updateChart` that runs is the one of the chart that created the object, so for an
object of another chart the series of this chart is left as it is. -/
def setFillStyle (px : PixelSize) (c : Chart) (r : Ref) (fillStyle : FillStyle) : Outcome :=
  if r ∈ c.subCategories then
    Chart.refresh px { c with heap := modifyAt (fun _ => fillStyle) c.heap r }
  else { chart := { c with heap := modifyAt (fun _ => fillStyle) c.heap r }, typeError := false }

/-- `yCategory.setCategoryYValue(value)` on the y-category at position `k`. -/
def setCategoryYValue (px : PixelSize) (c : Chart) (k : Nat) (value : ℚ) : Outcome :=
  Chart.refresh px { c with yCategories := modifyAt (YCategory.setValue value) c.yCategories k }

/-- The public operations, the `subCategory` argument being any value. -/
inductive Operation where
  | addCategory (name : String)
  | addSubCategory
  | addYCategory (name : String) (value : ℚ)
  | setCategoryValue (i : Nat) (value : ℚ)
  | setSubCategoryValue (i : Nat) (subCategory : Argument) (value : ℚ)
  | setFillStyle (r : Ref) (fillStyle : FillStyle)
  | setCategoryYValue (k : Nat) (value : ℚ)
deriving DecidableEq

/-- The outcome of an operation. -/
def Operation.apply (px : PixelSize) (c : Chart) : Operation → Outcome
  | .addCategory name => { chart := (Raw.addCategory c name).1, typeError := false }
  | .addSubCategory => { chart := (Raw.addSubCategory c).1, typeError := false }
  | .addYCategory name value => { chart := (Raw.addYCategory c name value).1, typeError := false }
  | .setCategoryValue i value => Raw.setCategoryValue px c i value
  | .setSubCategoryValue i s value => Raw.setSubCategoryValue px c i s value
  | .setFillStyle r fillStyle => Raw.setFillStyle px c r fillStyle
  | .setCategoryYValue k value => Raw.setCategoryYValue px c k value

/-- The conditions on a caller: every `subCategory` argument is an object that exists
(not `undefined` or `null`), `setFillStyle` is called on an object that
`addSubCategory` of this chart returned, and the other setters on objects that the
chart returned. -/
def Operation.admissible (c : Chart) : Operation → Bool
  | .addCategory _ => true
  | .addSubCategory => true
  | .addYCategory _ _ => true
  | .setCategoryValue i _ => decide (i < c.categories.length)
  | .setSubCategoryValue i (.object s) _ =>
    decide (i < c.categories.length) && decide (s < c.heap.length)
  | .setSubCategoryValue _ .nullish _ => false
  | .setFillStyle r _ => decide (r ∈ c.subCategories)
  | .setCategoryYValue k _ => decide (k < c.yCategories.length)

/-- States that a chart goes through when every caller keeps to the conditions, the pixel
sizes being fixed. -/
inductive Reachable (px : PixelSize) : Chart → Prop where
  | init (heap : List FillStyle) : Reachable px (mosaicChart heap)
  | step (c : Chart) (op : Operation) :
      Reachable px c → op.admissible c = true → Reachable px (op.apply px c).chart

/-- States that a chart goes through under any sequence of the public operations (a
caller that catches a TypeError goes on with the state the call left). -/
inductive ReachableByAnyCall (px : PixelSize) : Chart → Prop where
  | init (heap : List FillStyle) : ReachableByAnyCall px (mosaicChart heap)
  | step (c : Chart) (op : Operation) :
      ReachableByAnyCall px c → ReachableByAnyCall px (op.apply px c).chart

end Raw

/-- The entry as the code holds it, its `subCategory` being an object. -/
def SubCategoryValue.toRaw (e : SubCategoryValue) : Raw.SubCategoryValue :=
  { subCategory := Raw.Argument.object e.subCategory, value := e.value, label := e.label }

/-- The category as the code holds it. -/
def Category.toRaw (c : Category) : Raw.Category :=
  { name := c.name, value := c.value, tick := c.tick
    subCategories := c.subCategories.map SubCategoryValue.toRaw }

/-- The chart state as the code holds it: every entry refers to an object and every
figure has its fill style. -/
def Chart.toRaw (c : Chart) : Raw.Chart :=
  { categories := c.categories.map Category.toRaw
    yCategories := c.yCategories
    subCategories := c.subCategories
    margin := c.margin
    rectangles := c.rectangles.map Raw.Figure.styled
    heap := c.heap
    uiElements := c.uiElements }

/-- The operation with its `subCategory` argument as an object. -/
def Operation.toRaw : Operation → Raw.Operation
  | .addCategory name => Raw.Operation.addCategory name
  | .addSubCategory => Raw.Operation.addSubCategory
  | .addYCategory name value => Raw.Operation.addYCategory name value
  | .setCategoryValue i value => Raw.Operation.setCategoryValue i value
  | .setSubCategoryValue i s value =>
    Raw.Operation.setSubCategoryValue i (Raw.Argument.object s) value
  | .setFillStyle r fillStyle => Raw.Operation.setFillStyle r fillStyle
  | .setCategoryYValue k value => Raw.Operation.setCategoryYValue k value

/-- A chart that never called `addSubCategory` and draws an object that it did not
create: one category of value 1 with an entry of value 5 for the object with reference 0
(fill style 7). -/
def foreignDrawn : Raw.Chart :=
  ((Raw.Operation.setSubCategoryValue 0 (Raw.Argument.object 0) 5).apply examplePx
    ((Raw.Operation.setCategoryValue 0 1).apply examplePx
      ((Raw.Operation.addCategory "A").apply examplePx (Raw.mosaicChart [7])).chart).chart).chart

/-- A chart that draws an object of its own: `addSubCategory`, then a category of value 1
with an entry of value 1 for that object. -/
def ownDrawn : Raw.Chart :=
  ((Raw.Operation.setSubCategoryValue 0 (Raw.Argument.object 0) 1).apply examplePx
    ((Raw.Operation.setCategoryValue 0 1).apply examplePx
      ((Raw.Operation.addCategory "A").apply examplePx
        (Raw.Operation.addSubCategory.apply examplePx (Raw.mosaicChart [])).chart).chart).chart).chart

/-! ## Fields of the state after each operation -/

@[simp]
theorem setCategoryValue_categories (px : PixelSize) (c : Chart) (i : Nat) (v : ℚ) :
    (setCategoryValue px c i v).categories =
      modifyAt (Category.setValue v) c.categories i := rfl

@[simp]
theorem setCategoryValue_yCategories (px : PixelSize) (c : Chart) (i : Nat) (v : ℚ) :
    (setCategoryValue px c i v).yCategories =
      c.yCategories := rfl

@[simp]
theorem setCategoryValue_subCategories (px : PixelSize) (c : Chart) (i : Nat) (v : ℚ) :
    (setCategoryValue px c i v).subCategories =
      c.subCategories := rfl

@[simp]
theorem setCategoryValue_margin (px : PixelSize) (c : Chart) (i : Nat) (v : ℚ) :
    (setCategoryValue px c i v).margin =
      c.margin := rfl

@[simp]
theorem setCategoryValue_rectangles (px : PixelSize) (c : Chart) (i : Nat) (v : ℚ) :
    (setCategoryValue px c i v).rectangles =
      _updateChart (setCategoryValue px c i v).heap (setCategoryValue px c i v).margin px (setCategoryValue px c i v).categories := rfl

@[simp]
theorem setCategoryValue_heap (px : PixelSize) (c : Chart) (i : Nat) (v : ℚ) :
    (setCategoryValue px c i v).heap =
      c.heap := rfl

@[simp]
theorem setCategoryValue_uiElements (px : PixelSize) (c : Chart) (i : Nat) (v : ℚ) :
    (setCategoryValue px c i v).uiElements =
      c.uiElements := rfl

@[simp]
theorem setSubCategoryValue_categories (px : PixelSize) (c : Chart) (i : Nat) (s : Ref) (v : ℚ) :
    (setSubCategoryValue px c i s v).categories =
      modifyAt (Category.setSubCategoryValue s v c.uiElements) c.categories i := rfl

@[simp]
theorem setSubCategoryValue_yCategories (px : PixelSize) (c : Chart) (i : Nat) (s : Ref) (v : ℚ) :
    (setSubCategoryValue px c i s v).yCategories =
      c.yCategories := rfl

@[simp]
theorem setSubCategoryValue_subCategories (px : PixelSize) (c : Chart) (i : Nat) (s : Ref) (v : ℚ) :
    (setSubCategoryValue px c i s v).subCategories =
      c.subCategories := rfl

@[simp]
theorem setSubCategoryValue_margin (px : PixelSize) (c : Chart) (i : Nat) (s : Ref) (v : ℚ) :
    (setSubCategoryValue px c i s v).margin =
      c.margin := rfl

@[simp]
theorem setSubCategoryValue_rectangles (px : PixelSize) (c : Chart) (i : Nat) (s : Ref) (v : ℚ) :
    (setSubCategoryValue px c i s v).rectangles =
      _updateChart (setSubCategoryValue px c i s v).heap (setSubCategoryValue px c i s v).margin px (setSubCategoryValue px c i s v).categories := rfl

@[simp]
theorem setSubCategoryValue_heap (px : PixelSize) (c : Chart) (i : Nat) (s : Ref) (v : ℚ) :
    (setSubCategoryValue px c i s v).heap =
      c.heap := rfl

@[simp]
theorem setSubCategoryValue_uiElements (px : PixelSize) (c : Chart) (i : Nat) (s : Ref) (v : ℚ) :
    (setSubCategoryValue px c i s v).uiElements =
      if ((c.categories[i]?).bind (fun k => findExisting s k.subCategories)).isNone
        then c.uiElements + 1 else c.uiElements := rfl

@[simp]
theorem setFillStyle_categories (px : PixelSize) (c : Chart) (r : Ref) (f : FillStyle) :
    (setFillStyle px c r f).categories =
      c.categories := by
  unfold setFillStyle
  split <;> rfl

@[simp]
theorem setFillStyle_yCategories (px : PixelSize) (c : Chart) (r : Ref) (f : FillStyle) :
    (setFillStyle px c r f).yCategories =
      c.yCategories := by
  unfold setFillStyle
  split <;> rfl

@[simp]
theorem setFillStyle_subCategories (px : PixelSize) (c : Chart) (r : Ref) (f : FillStyle) :
    (setFillStyle px c r f).subCategories =
      c.subCategories := by
  unfold setFillStyle
  split <;> rfl

@[simp]
theorem setFillStyle_margin (px : PixelSize) (c : Chart) (r : Ref) (f : FillStyle) :
    (setFillStyle px c r f).margin =
      c.margin := by
  unfold setFillStyle
  split <;> rfl

theorem setFillStyle_rectangles (px : PixelSize) (c : Chart) (r : Ref) (f : FillStyle)
    (h : r ∈ c.subCategories) :
    (setFillStyle px c r f).rectangles =
      _updateChart (setFillStyle px c r f).heap (setFillStyle px c r f).margin px
        (setFillStyle px c r f).categories := by
  unfold setFillStyle
  rw [if_pos h]
  rfl

@[simp]
theorem setFillStyle_heap (px : PixelSize) (c : Chart) (r : Ref) (f : FillStyle) :
    (setFillStyle px c r f).heap =
      modifyAt (fun _ => f) c.heap r := by
  unfold setFillStyle
  split <;> rfl

@[simp]
theorem setFillStyle_uiElements (px : PixelSize) (c : Chart) (r : Ref) (f : FillStyle) :
    (setFillStyle px c r f).uiElements =
      c.uiElements := by
  unfold setFillStyle
  split <;> rfl

@[simp]
theorem setCategoryYValue_categories (px : PixelSize) (c : Chart) (k : Nat) (v : ℚ) :
    (setCategoryYValue px c k v).categories =
      c.categories := rfl

@[simp]
theorem setCategoryYValue_yCategories (px : PixelSize) (c : Chart) (k : Nat) (v : ℚ) :
    (setCategoryYValue px c k v).yCategories =
      modifyAt (YCategory.setValue v) c.yCategories k := rfl

@[simp]
theorem setCategoryYValue_subCategories (px : PixelSize) (c : Chart) (k : Nat) (v : ℚ) :
    (setCategoryYValue px c k v).subCategories =
      c.subCategories := rfl

@[simp]
theorem setCategoryYValue_margin (px : PixelSize) (c : Chart) (k : Nat) (v : ℚ) :
    (setCategoryYValue px c k v).margin =
      c.margin := rfl

@[simp]
theorem setCategoryYValue_rectangles (px : PixelSize) (c : Chart) (k : Nat) (v : ℚ) :
    (setCategoryYValue px c k v).rectangles =
      _updateChart (setCategoryYValue px c k v).heap (setCategoryYValue px c k v).margin px (setCategoryYValue px c k v).categories := rfl

@[simp]
theorem setCategoryYValue_heap (px : PixelSize) (c : Chart) (k : Nat) (v : ℚ) :
    (setCategoryYValue px c k v).heap =
      c.heap := rfl

@[simp]
theorem setCategoryYValue_uiElements (px : PixelSize) (c : Chart) (k : Nat) (v : ℚ) :
    (setCategoryYValue px c k v).uiElements =
      c.uiElements := rfl

@[simp]
theorem addCategory_categories (c : Chart) (name : String) :
    ((addCategory c name).1).categories =
      c.categories ++
        [{ name := name, value := 0, tick := c.uiElements, subCategories := [] }] := rfl

@[simp]
theorem addCategory_yCategories (c : Chart) (name : String) :
    ((addCategory c name).1).yCategories =
      c.yCategories := rfl

@[simp]
theorem addCategory_subCategories (c : Chart) (name : String) :
    ((addCategory c name).1).subCategories =
      c.subCategories := rfl

@[simp]
theorem addCategory_margin (c : Chart) (name : String) :
    ((addCategory c name).1).margin =
      c.margin := rfl

@[simp]
theorem addCategory_rectangles (c : Chart) (name : String) :
    ((addCategory c name).1).rectangles =
      c.rectangles := rfl

@[simp]
theorem addCategory_heap (c : Chart) (name : String) :
    ((addCategory c name).1).heap =
      c.heap := rfl

@[simp]
theorem addCategory_uiElements (c : Chart) (name : String) :
    ((addCategory c name).1).uiElements =
      c.uiElements + 1 := rfl

@[simp]
theorem addSubCategory_categories (c : Chart) :
    ((addSubCategory c).1).categories =
      c.categories := rfl

@[simp]
theorem addSubCategory_yCategories (c : Chart) :
    ((addSubCategory c).1).yCategories =
      c.yCategories := rfl

@[simp]
theorem addSubCategory_subCategories (c : Chart) :
    ((addSubCategory c).1).subCategories =
      c.subCategories ++ [c.heap.length] := rfl

@[simp]
theorem addSubCategory_margin (c : Chart) :
    ((addSubCategory c).1).margin =
      c.margin := rfl

@[simp]
theorem addSubCategory_rectangles (c : Chart) :
    ((addSubCategory c).1).rectangles =
      c.rectangles := rfl

@[simp]
theorem addSubCategory_heap (c : Chart) :
    ((addSubCategory c).1).heap =
      c.heap ++ [seriesFill] := rfl

@[simp]
theorem addSubCategory_uiElements (c : Chart) :
    ((addSubCategory c).1).uiElements =
      c.uiElements := rfl

@[simp]
theorem addYCategory_categories (c : Chart) (name : String) (v : ℚ) :
    ((addYCategory c name v).1).categories =
      c.categories := rfl

@[simp]
theorem addYCategory_yCategories (c : Chart) (name : String) (v : ℚ) :
    ((addYCategory c name v).1).yCategories =
      c.yCategories ++ [{ name := name, value := v, tick := c.uiElements }] := rfl

@[simp]
theorem addYCategory_subCategories (c : Chart) (name : String) (v : ℚ) :
    ((addYCategory c name v).1).subCategories =
      c.subCategories := rfl

@[simp]
theorem addYCategory_margin (c : Chart) (name : String) (v : ℚ) :
    ((addYCategory c name v).1).margin =
      c.margin := rfl

@[simp]
theorem addYCategory_rectangles (c : Chart) (name : String) (v : ℚ) :
    ((addYCategory c name v).1).rectangles =
      c.rectangles := rfl

@[simp]
theorem addYCategory_heap (c : Chart) (name : String) (v : ℚ) :
    ((addYCategory c name v).1).heap =
      c.heap := rfl

@[simp]
theorem addYCategory_uiElements (c : Chart) (name : String) (v : ℚ) :
    ((addYCategory c name v).1).uiElements =
      c.uiElements + 1 := rfl

@[simp]
theorem addSubCategory_ref (c : Chart) : (addSubCategory c).2 = c.heap.length := rfl

@[simp]
theorem addCategory_position (c : Chart) (name : String) :
    (addCategory c name).2 = c.categories.length := rfl

/-! ## Cursor loops -/

theorem foldl_add_eq_sum {α : Type} (f : α → ℚ) (l : List α) (a : ℚ) :
    l.foldl (fun prev cur => prev + f cur) a = a + (l.map f).sum := by
  induction l generalizing a with
  | nil => simp
  | cons x xs ih => simp [ih, add_assoc]

theorem sumCategoryValues_eq (categories : List Category) :
    sumCategoryValues categories = (categories.map (fun c => c.value)).sum := by
  simp [sumCategoryValues, foldl_add_eq_sum]

theorem sumSubCategoryValues_eq (category : Category) :
    sumSubCategoryValues category = (category.subCategories.map (fun e => e.value)).sum := by
  simp [sumSubCategoryValues, foldl_add_eq_sum]

/-- A loop that advances a cursor by `w a` and appends `g cursor a` for each element `a`
yields the total advance and, per element, what `g` gives at the sum of the advances of
the elements before it. -/
theorem foldl_cursor {α β : Type} (w : α → ℚ) (g : ℚ → α → List β) (l : List α)
    (y : ℚ) (r : List β) :
    l.foldl (fun st a => (st.1 + w a, st.2 ++ g st.1 a)) (y, r) =
      (y + (l.map w).sum,
        r ++ l.enum.flatMap (fun p => g (y + ((l.take p.1).map w).sum) p.2)) := by
  induction l generalizing y r with
  | nil => simp
  | cons a l ih =>
    simp only [List.foldl_cons, ih, List.map_cons, List.sum_cons, List.enum,
      List.enumFrom_cons', List.flatMap_cons, List.take_zero, List.map_nil, List.sum_nil,
      add_zero, List.flatMap_map, List.append_assoc, Prod.mk.injEq]
    refine ⟨by ring, ?_⟩
    congr 2
    refine congrArg _ (funext fun p => ?_)
    simp [Prod.map, add_assoc]

theorem sum_map_share {α : Type} (f : α → ℚ) (t : ℚ) (l : List α) :
    (l.map (fun a => 100 * f a / t)).sum = 100 * (l.map f).sum / t := by
  induction l with
  | nil => simp
  | cons a l ih => simp [ih, mul_add, add_div]

theorem subCategoryStep_eq (heap : List FillStyle) (margin : ℚ) (px : PixelSize)
    (xPos relCat sumSub : ℚ) :
    subCategoryStep heap margin px xPos relCat sumSub =
      fun st e => (st.1 + relativeSubCategoryValue sumSub e,
        st.2 ++ entryFigures heap margin px xPos relCat sumSub st.1 e) := by
  funext st e
  unfold subCategoryStep entryFigures
  by_cases h : relativeSubCategoryValue sumSub e > 0 <;> simp [h]

theorem subCategoryLoop_eq (heap : List FillStyle) (margin : ℚ) (px : PixelSize)
    (xPos relCat sumSub : ℚ) (l : List SubCategoryValue) (y : ℚ) (r : List Figure) :
    l.foldl (subCategoryStep heap margin px xPos relCat sumSub) (y, r) =
      (y + (l.map (relativeSubCategoryValue sumSub)).sum,
        r ++ l.enum.flatMap (fun p =>
          entryFigures heap margin px xPos relCat sumSub
            (y + ((l.take p.1).map (relativeSubCategoryValue sumSub)).sum) p.2)) := by
  rw [subCategoryStep_eq]
  exact foldl_cursor (relativeSubCategoryValue sumSub)
    (entryFigures heap margin px xPos relCat sumSub) l y r

theorem categoryStep_eq (heap : List FillStyle) (margin : ℚ) (px : PixelSize) (sum : ℚ) :
    categoryStep heap margin px sum =
      fun st c => (st.1 + relativeCategoryValue sum c,
        st.2 ++ categoryFigures heap margin px sum st.1 c) := by
  funext st c
  unfold categoryStep categoryFigures
  by_cases h : sumSubCategoryValues c > 0
  · simp [h, subCategoryLoop_eq]
  · simp [h]

theorem categoryLoop_eq (heap : List FillStyle) (margin : ℚ) (px : PixelSize) (sum : ℚ)
    (l : List Category) :
    categoryLoop heap margin px sum l =
      ((l.map (relativeCategoryValue sum)).sum,
        l.enum.flatMap (fun p =>
          categoryFigures heap margin px sum
            (((l.take p.1).map (relativeCategoryValue sum)).sum) p.2)) := by
  unfold categoryLoop
  rw [categoryStep_eq, foldl_cursor (relativeCategoryValue sum)
    (categoryFigures heap margin px sum) l 0 []]
  simp

/-! ## Widths and heights -/

/-- C1: when the category values sum to `S > 0`, the widths `100 * value / S` by which
`_updateChart` advances the x cursor sum to exactly 100, and the cursor is at 100 after
the last category. -/
theorem widths_sum_eq_100 (heap : List FillStyle) (margin : ℚ) (px : PixelSize)
    (categories : List Category) (hS : sumCategoryValues categories > 0) :
    (categories.map (relativeCategoryValue (sumCategoryValues categories))).sum = 100 ∧
      (categoryLoop heap margin px (sumCategoryValues categories) categories).1 = 100 := by
  have h : (categories.map (relativeCategoryValue (sumCategoryValues categories))).sum
      = 100 := by
    have h1 := sum_map_share (fun c : Category => c.value) (sumCategoryValues categories)
      categories
    have h2 : (fun c : Category => 100 * c.value / sumCategoryValues categories) =
        relativeCategoryValue (sumCategoryValues categories) := rfl
    rw [h2, ← sumCategoryValues_eq] at h1
    rw [h1]
    field_simp
  exact ⟨h, by rw [categoryLoop_eq]; exact h⟩

theorem widths_sum_eq_100_witness :
    sumCategoryValues exampleCategories > 0 ∧
      ((exampleCategories.map
          (relativeCategoryValue (sumCategoryValues exampleCategories))).sum = 100 ∧
        (categoryLoop exampleHeap 4 examplePx (sumCategoryValues exampleCategories)
          exampleCategories).1 = 100) :=
  ⟨by norm_num [sumCategoryValues, exampleCategories, withCaffeine, decaffeinated, placeboProduct],
    widths_sum_eq_100 exampleHeap 4 examplePx exampleCategories
      (by norm_num [sumCategoryValues, exampleCategories, withCaffeine, decaffeinated, placeboProduct])⟩

/-- Heights and number of the figures in the series after the inner loop. -/
theorem subCategoryLoop_heights (heap : List FillStyle) (margin : ℚ) (px : PixelSize)
    (xPos relCat sumSub : ℚ) (l : List SubCategoryValue) (y : ℚ) (r : List Figure) :
    (((l.foldl (subCategoryStep heap margin px xPos relCat sumSub) (y, r)).2.map
        (fun f => f.dimensions.height)).sum =
      (r.map (fun f => f.dimensions.height)).sum +
        (l.map (fun e => if relativeSubCategoryValue sumSub e > 0
          then relativeSubCategoryValue sumSub e - 2 * margin * px.y else 0)).sum) ∧
    (((l.foldl (subCategoryStep heap margin px xPos relCat sumSub) (y, r)).2.length : ℚ) =
      (r.length : ℚ) +
        (l.map (fun e => if relativeSubCategoryValue sumSub e > 0 then (1 : ℚ) else 0)).sum) := by
  induction l generalizing y r with
  | nil => simp
  | cons e l ih =>
    rw [List.foldl_cons]
    obtain ⟨h1, h2⟩ := ih (subCategoryStep heap margin px xPos relCat sumSub (y, r) e).1
      (subCategoryStep heap margin px xPos relCat sumSub (y, r) e).2
    simp only [Prod.mk.eta] at h1 h2
    rw [h1, h2]
    unfold subCategoryStep
    by_cases h : relativeSubCategoryValue sumSub e > 0
    · simp [h, rectangleDimensions]
      constructor <;> ring
    · simp [h]

theorem share_nonneg_sum (margin py sumSub : ℚ) (hT : sumSub > 0)
    (l : List SubCategoryValue)
    (hv : ∀ e ∈ l, 0 ≤ e.value) :
    (l.map (fun e => if relativeSubCategoryValue sumSub e > 0
        then relativeSubCategoryValue sumSub e - 2 * margin * py else 0)).sum =
      (l.map (relativeSubCategoryValue sumSub)).sum -
        2 * margin * py *
          (l.map (fun e => if relativeSubCategoryValue sumSub e > 0 then (1 : ℚ) else 0)).sum := by
  induction l with
  | nil => simp
  | cons e l ih =>
    have he : 0 ≤ relativeSubCategoryValue sumSub e := by
      unfold relativeSubCategoryValue
      have := hv e (List.mem_cons_self _ _)
      positivity
    simp only [List.map_cons, List.sum_cons]
    rw [ih (fun a ha => hv a (List.mem_cons_of_mem _ ha))]
    by_cases h : relativeSubCategoryValue sumSub e > 0
    · rw [if_pos h, if_pos h]; ring
    · have h0 : relativeSubCategoryValue sumSub e = 0 := le_antisymm (not_lt.mp h) he
      rw [if_neg h, if_neg h, h0]; ring

/-- C2 (amended): for a category whose subcategory values are all non-negative and sum to
`T > 0`, the heights of the rectangles that the loop body of `_updateChart` adds for it
sum to `100 - 2 * margin * px.y * k`, `k` being the number of rectangles added. -/
theorem heights_sum_of_nonneg (heap : List FillStyle) (margin : ℚ) (px : PixelSize)
    (sum xPos : ℚ) (c : Category) (hT : sumSubCategoryValues c > 0)
    (hv : ∀ e ∈ c.subCategories, 0 ≤ e.value) :
    ((categoryStep heap margin px sum (xPos, []) c).2.map
        (fun f => f.dimensions.height)).sum =
      100 - 2 * margin * px.y *
        ((categoryStep heap margin px sum (xPos, []) c).2.length : ℚ) := by
  unfold categoryStep
  simp only [hT, if_true]
  obtain ⟨h1, h2⟩ := subCategoryLoop_heights heap margin px xPos
    (relativeCategoryValue sum c) (sumSubCategoryValues c) c.subCategories 0 []
  rw [h1, h2, share_nonneg_sum margin px.y (sumSubCategoryValues c) hT c.subCategories hv]
  have h3 := sum_map_share (fun e : SubCategoryValue => e.value) (sumSubCategoryValues c)
    c.subCategories
  have h4 : (fun e : SubCategoryValue => 100 * e.value / sumSubCategoryValues c) =
      relativeSubCategoryValue (sumSubCategoryValues c) := rfl
  rw [h4, ← sumSubCategoryValues_eq] at h3
  rw [h3]
  simp
  field_simp

theorem heights_sum_of_nonneg_witness :
    sumSubCategoryValues withCaffeine > 0 ∧
      (∀ e ∈ withCaffeine.subCategories, 0 ≤ e.value) ∧
      ((categoryStep exampleHeap 4 examplePx 100 (0, []) withCaffeine).2.map
          (fun f => f.dimensions.height)).sum =
        100 - 2 * 4 * examplePx.y *
          ((categoryStep exampleHeap 4 examplePx 100 (0, [])
            withCaffeine).2.length : ℚ) :=
  ⟨by norm_num [sumSubCategoryValues, withCaffeine],
    by simp [withCaffeine],
    heights_sum_of_nonneg exampleHeap 4 examplePx 100 0 withCaffeine
      (by norm_num [sumSubCategoryValues, withCaffeine])
      (by simp [withCaffeine])⟩

/-- C2 as stated fails with a negative subcategory value: for entries 3 and -1 (`T = 2`)
in a chart whose only category has value 1, one rectangle is added, of height
`150 - 2 * margin * px.y`, not `100 - 2 * margin * px.y`. -/
theorem heights_sum_counterexample :
    sumCategoryValues [negativeEntryCategory] > 0 ∧
      sumSubCategoryValues negativeEntryCategory > 0 ∧
      (categoryStep exampleHeap 4 examplePx (sumCategoryValues [negativeEntryCategory])
          (0, []) negativeEntryCategory).2.length = 1 ∧
      ((categoryStep exampleHeap 4 examplePx (sumCategoryValues [negativeEntryCategory])
          (0, []) negativeEntryCategory).2.map (fun f => f.dimensions.height)).sum =
        150 - 2 * 4 * examplePx.y ∧
      ((categoryStep exampleHeap 4 examplePx (sumCategoryValues [negativeEntryCategory])
          (0, []) negativeEntryCategory).2.map (fun f => f.dimensions.height)).sum ≠
        100 - 2 * 4 * examplePx.y *
          ((categoryStep exampleHeap 4 examplePx (sumCategoryValues [negativeEntryCategory])
            (0, []) negativeEntryCategory).2.length : ℚ) := by
  norm_num [sumCategoryValues, sumSubCategoryValues, negativeEntryCategory, categoryStep,
    subCategoryStep, relativeSubCategoryValue, relativeCategoryValue, rectangleDimensions,
    examplePx, exampleHeap]

/-! ## Updating a category value -/

theorem getElem?_modifyAt_ne {α : Type} (f : α → α) (l : List α) (i j : Nat) (h : j ≠ i) :
    (modifyAt f l i)[j]? = l[j]? := by
  induction l generalizing i j with
  | nil => simp [modifyAt]
  | cons a l ih =>
    cases i with
    | zero =>
      cases j with
      | zero => exact absurd rfl h
      | succ j => simp [modifyAt]
    | succ i =>
      cases j with
      | zero => simp [modifyAt]
      | succ j => simpa [modifyAt] using ih i j (fun e => h (by rw [e]))

theorem take_modifyAt {α : Type} (f : α → α) (l : List α) (i j : Nat) (h : j ≤ i) :
    (modifyAt f l i).take j = l.take j := by
  induction l generalizing i j with
  | nil => simp [modifyAt]
  | cons a l ih =>
    cases j with
    | zero => simp
    | succ j =>
      cases i with
      | zero => exact absurd h (by omega)
      | succ i => simpa [modifyAt] using ih i j (by omega)

theorem length_modifyAt {α : Type} (f : α → α) (l : List α) (i : Nat) :
    (modifyAt f l i).length = l.length := by
  induction l generalizing i with
  | nil => simp [modifyAt]
  | cons a l ih => cases i <;> simp [modifyAt, ih]

theorem relativeCategoryValue_rescale (s t : ℚ) (hs : s ≠ 0) (a : Category) :
    relativeCategoryValue t a = relativeCategoryValue s a * (s / t) := by
  unfold relativeCategoryValue
  field_simp

theorem xPosAt_eq (heap : List FillStyle) (margin : ℚ) (px : PixelSize) (sum : ℚ)
    (categories : List Category) (i : Nat) :
    xPosAt heap margin px sum categories i =
      ((categories.take i).map (relativeCategoryValue sum)).sum := by
  simp [xPosAt, categoryLoop_eq]

/-- C3 as stated fails: in a chart with two categories of value 1 (widths 50 and 50),
setting the value of the first to 3 keeps the total positive and changes the width of
the second, which was not updated, to 25. -/
theorem setCategoryValue_counterexample :
    twoColumns.categories.length = 2 ∧
      sumCategoryValues twoColumns.categories > 0 ∧
      sumCategoryValues (setCategoryValue examplePx twoColumns 0 3).categories > 0 ∧
      twoColumns.categories.map
          (relativeCategoryValue (sumCategoryValues twoColumns.categories)) = [50, 50] ∧
      (setCategoryValue examplePx twoColumns 0 3).categories.map
          (relativeCategoryValue
            (sumCategoryValues (setCategoryValue examplePx twoColumns 0 3).categories)) =
        [75, 25] := by
  norm_num [twoColumns, setCategoryValue, Chart.refresh, mosaicChart, modifyAt,
    Category.setValue, sumCategoryValues, relativeCategoryValue]

/-- C3 (amended): `setCategoryValue` on the category at position `i`, the total being
`S > 0` before and `S' > 0` after, leaves every other category object as it was and
multiplies by `S / S'` the width of every other category and the x-offset of every
category up to and including position `i`. -/
theorem setCategoryValue_rescales (px : PixelSize) (c : Chart) (i : Nat) (value : ℚ)
    (hS : sumCategoryValues c.categories > 0)
    (_hS' : sumCategoryValues (setCategoryValue px c i value).categories > 0) :
    (∀ j, j ≠ i → ∀ a, c.categories[j]? = some a →
      (setCategoryValue px c i value).categories[j]? = some a ∧
      relativeCategoryValue (sumCategoryValues (setCategoryValue px c i value).categories) a =
        relativeCategoryValue (sumCategoryValues c.categories) a *
          (sumCategoryValues c.categories /
            sumCategoryValues (setCategoryValue px c i value).categories)) ∧
    (∀ j, j ≤ i →
      xPosAt (setCategoryValue px c i value).heap (setCategoryValue px c i value).margin px
          (sumCategoryValues (setCategoryValue px c i value).categories)
          (setCategoryValue px c i value).categories j =
        xPosAt c.heap c.margin px (sumCategoryValues c.categories) c.categories j *
          (sumCategoryValues c.categories /
            sumCategoryValues (setCategoryValue px c i value).categories)) := by
  have hcats : (setCategoryValue px c i value).categories =
      modifyAt (Category.setValue value) c.categories i := rfl
  refine ⟨fun j hj a ha => ⟨?_, relativeCategoryValue_rescale _ _ (ne_of_gt hS) a⟩,
    fun j hj => ?_⟩
  · rw [hcats, getElem?_modifyAt_ne _ _ _ _ hj, ha]
  · rw [xPosAt_eq, xPosAt_eq, hcats, take_modifyAt _ _ _ _ hj, ← List.sum_map_mul_right]
    congr 1
    apply List.map_congr_left
    intro a _
    exact relativeCategoryValue_rescale _ _ (ne_of_gt hS) a

theorem setCategoryValue_rescales_witness :
    sumCategoryValues twoColumns.categories > 0 ∧
      sumCategoryValues (setCategoryValue examplePx twoColumns 0 3).categories > 0 ∧
      ((∀ j, j ≠ 0 → ∀ a, twoColumns.categories[j]? = some a →
        (setCategoryValue examplePx twoColumns 0 3).categories[j]? = some a ∧
        relativeCategoryValue
            (sumCategoryValues (setCategoryValue examplePx twoColumns 0 3).categories) a =
          relativeCategoryValue (sumCategoryValues twoColumns.categories) a *
            (sumCategoryValues twoColumns.categories /
              sumCategoryValues (setCategoryValue examplePx twoColumns 0 3).categories)) ∧
      (∀ j, j ≤ 0 →
        xPosAt (setCategoryValue examplePx twoColumns 0 3).heap
            (setCategoryValue examplePx twoColumns 0 3).margin examplePx
            (sumCategoryValues (setCategoryValue examplePx twoColumns 0 3).categories)
            (setCategoryValue examplePx twoColumns 0 3).categories j =
          xPosAt twoColumns.heap twoColumns.margin examplePx
              (sumCategoryValues twoColumns.categories) twoColumns.categories j *
            (sumCategoryValues twoColumns.categories /
              sumCategoryValues (setCategoryValue examplePx twoColumns 0 3).categories))) :=
  ⟨by norm_num [twoColumns, Chart.refresh, mosaicChart, sumCategoryValues],
    by norm_num [twoColumns, setCategoryValue, Chart.refresh, mosaicChart, modifyAt,
      Category.setValue, sumCategoryValues],
    setCategoryValue_rescales examplePx twoColumns 0 3
      (by norm_num [twoColumns, Chart.refresh, mosaicChart, sumCategoryValues])
      (by norm_num [twoColumns, setCategoryValue, Chart.refresh, mosaicChart, modifyAt,
        Category.setValue, sumCategoryValues])⟩

/-! ## Setting a subcategory value -/

theorem findExisting_eq_none_iff (s : Ref) (l : List SubCategoryValue) :
    findExisting s l = none ↔ ∀ e ∈ l, e.subCategory ≠ s := by
  simp [findExisting]

theorem getElem?_modifyAt_self {α : Type} (f : α → α) (l : List α) (i : Nat) :
    (modifyAt f l i)[i]? = (l[i]?).map f := by
  induction l generalizing i with
  | nil => simp [modifyAt]
  | cons a l ih => cases i <;> simp [modifyAt, ih]

/-- What `existing.value = value` does to a list that holds an entry for `s`: the first
such entry, at position `k`, gets the value; nothing else changes. -/
theorem assignExisting_spec (s : Ref) (v : ℚ) (l : List SubCategoryValue)
    (h : ∃ e ∈ l, e.subCategory = s) :
    ∃ (k : Nat) (e : SubCategoryValue), l[k]? = some e ∧ e.subCategory = s ∧
      (∀ j, j < k → ∀ a : SubCategoryValue, l[j]? = some a → a.subCategory ≠ s) ∧
      (assignExisting s v l)[k]? = some { e with value := v } ∧
      (∀ j, j ≠ k → (assignExisting s v l)[j]? = l[j]?) := by
  induction l with
  | nil => simp at h
  | cons a l ih =>
    by_cases ha : a.subCategory = s
    · refine ⟨0, a, by simp, ha, by simp, by simp [assignExisting, ha], ?_⟩
      intro j hj
      cases j with
      | zero => exact absurd rfl hj
      | succ j => simp [assignExisting, ha]
    · have h' : ∃ e ∈ l, e.subCategory = s := by
        obtain ⟨e, he, hes⟩ := h
        rcases List.mem_cons.mp he with rfl | he'
        · exact absurd hes ha
        · exact ⟨e, he', hes⟩
      obtain ⟨k, e, hk, hes, hbefore, hset, hother⟩ := ih h'
      refine ⟨k + 1, e, by simpa using hk, hes, ?_, by simpa [assignExisting, ha] using hset, ?_⟩
      · intro j hj b hb
        cases j with
        | zero =>
          simp at hb
          rw [← hb]; exact ha
        | succ j => exact hbefore j (by omega) b (by simpa using hb)
      · intro j hj
        cases j with
        | zero => simp [assignExisting, ha]
        | succ j => simpa [assignExisting, ha] using hother j (fun e => hj (by rw [e]))

theorem assignExisting_map_subCategory (s : Ref) (v : ℚ) (l : List SubCategoryValue) :
    (assignExisting s v l).map (fun e => e.subCategory) = l.map (fun e => e.subCategory) := by
  induction l with
  | nil => rfl
  | cons a l ih => by_cases ha : a.subCategory = s <;> simp [assignExisting, ha, ih]

theorem assignExisting_map_label (s : Ref) (v : ℚ) (l : List SubCategoryValue) :
    (assignExisting s v l).map (fun e => e.label) = l.map (fun e => e.label) := by
  induction l with
  | nil => rfl
  | cons a l ih => by_cases ha : a.subCategory = s <;> simp [assignExisting, ha, ih]

theorem setSubCategoryValueList_of_absent (s : Ref) (v : ℚ) (label : Nat)
    (l : List SubCategoryValue) (h : ∀ e ∈ l, e.subCategory ≠ s) :
    setSubCategoryValueList s v label l = l ++ [⟨s, v, label⟩] := by
  unfold setSubCategoryValueList
  rw [(findExisting_eq_none_iff s l).mpr h]

theorem setSubCategoryValueList_of_present (s : Ref) (v : ℚ) (label : Nat)
    (l : List SubCategoryValue) (h : ∃ e ∈ l, e.subCategory = s) :
    setSubCategoryValueList s v label l = assignExisting s v l := by
  unfold setSubCategoryValueList
  cases hf : findExisting s l with
  | none =>
    obtain ⟨e, he, hes⟩ := h
    exact absurd hes ((findExisting_eq_none_iff s l).mp hf e he)
  | some x => rfl

/-- C4: `setSubCategoryValue(s, v)` on the category at position `i` replaces its list of
entries by `setSubCategoryValueList`; that list is the old one with `(s, v)` appended
when it holds no entry for `s`, and otherwise the old one with the value of the first
entry for `s` set to `v`, the length, the order of the subcategories, the labels and
every other entry being unchanged; a list with at most one entry per subcategory stays
so. -/
theorem setSubCategoryValue_entries (px : PixelSize) (c : Chart) (i : Nat) (s : Ref)
    (v : ℚ) (label : Nat) (l : List SubCategoryValue) :
    (setSubCategoryValue px c i s v).categories[i]? =
        (c.categories[i]?).map (fun k => { k with
          subCategories := setSubCategoryValueList s v c.uiElements k.subCategories }) ∧
    ((∀ e ∈ l, e.subCategory ≠ s) →
      setSubCategoryValueList s v label l = l ++ [⟨s, v, label⟩]) ∧
    ((∃ e ∈ l, e.subCategory = s) →
      (setSubCategoryValueList s v label l).length = l.length ∧
      (setSubCategoryValueList s v label l).map (fun e => e.subCategory) =
        l.map (fun e => e.subCategory) ∧
      (setSubCategoryValueList s v label l).map (fun e => e.label) =
        l.map (fun e => e.label) ∧
      ∃ (k : Nat) (e : SubCategoryValue), l[k]? = some e ∧ e.subCategory = s ∧
        (∀ j, j < k → ∀ a : SubCategoryValue, l[j]? = some a → a.subCategory ≠ s) ∧
        (setSubCategoryValueList s v label l)[k]? = some { e with value := v } ∧
        (∀ j, j ≠ k → (setSubCategoryValueList s v label l)[j]? = l[j]?)) ∧
    ((l.map (fun e => e.subCategory)).Nodup →
      ((setSubCategoryValueList s v label l).map (fun e => e.subCategory)).Nodup) := by
  refine ⟨?_, setSubCategoryValueList_of_absent s v label l, ?_, ?_⟩
  · simp only [setSubCategoryValue, Chart.refresh, getElem?_modifyAt_self]
    rfl
  · intro h
    rw [setSubCategoryValueList_of_present s v label l h]
    refine ⟨?_, assignExisting_map_subCategory s v l, assignExisting_map_label s v l,
      assignExisting_spec s v l h⟩
    have := congrArg List.length (assignExisting_map_subCategory s v l)
    simpa using this
  · intro hnd
    by_cases h : ∃ e ∈ l, e.subCategory = s
    · rw [setSubCategoryValueList_of_present s v label l h, assignExisting_map_subCategory]
      exact hnd
    · have h' : ∀ e ∈ l, e.subCategory ≠ s := fun e he hes => h ⟨e, he, hes⟩
      rw [setSubCategoryValueList_of_absent s v label l h', List.map_append,
        List.nodup_append]
      refine ⟨hnd, by simp, ?_⟩
      intro a ha hb
      simp only [List.map_cons, List.map_nil, List.mem_singleton] at hb
      obtain ⟨e, he, rfl⟩ := List.mem_map.mp ha
      exact h' e he hb

theorem setSubCategoryValue_entries_witness :
    (∃ e ∈ withCaffeine.subCategories, e.subCategory = 1) ∧
      (setSubCategoryValueList 1 7 99 withCaffeine.subCategories).length =
        withCaffeine.subCategories.length ∧
      (∀ e ∈ withCaffeine.subCategories, e.subCategory ≠ 5) ∧
      setSubCategoryValueList 5 7 99 withCaffeine.subCategories =
        withCaffeine.subCategories ++ [⟨5, 7, 99⟩] :=
  ⟨by simp [withCaffeine],
    ((setSubCategoryValue_entries examplePx twoColumns 0 1 7 99
      withCaffeine.subCategories).2.2.1 (by simp [withCaffeine])).1,
    by simp [withCaffeine],
    (setSubCategoryValue_entries examplePx twoColumns 0 5 7 99
      withCaffeine.subCategories).2.1 (by simp [withCaffeine])⟩

/-! ## The layout -/

theorem updateChart_eq_layoutSpec (heap : List FillStyle) (margin : ℚ) (px : PixelSize)
    (categories : List Category) (hS : sumCategoryValues categories > 0) :
    _updateChart heap margin px categories = layoutSpec heap margin px categories := by
  unfold _updateChart
  simp only [hS, if_true]
  rw [categoryLoop_eq]
  unfold layoutSpec categoryFigures entryFigures
  simp only [sumCategoryValues_eq, sumSubCategoryValues_eq]
  rfl

theorem exampleUsage_categories (px : PixelSize) :
    (exampleUsage px).categories = exampleCategories ∧
      (exampleUsage px).heap = exampleHeap := by
  unfold exampleUsage
  lift_lets
  intro c0 c1 c2 c3 exhaust c4 noEffect c5 refresh c6 k1 c7 c8 c9 c10 k2 c11 c12 c13 c14 k3 c15 c16 c17 c18
  have h0 : c0.categories = ([] : List Category) ∧ c0.heap = [] ∧
      c0.uiElements = 0 := by
    simp [c0, mosaicChart, modifyAt, seriesFill, Category.setValue,
      Category.setSubCategoryValue, setSubCategoryValueList, findExisting, assignExisting]
  clear_value c0
  have h1 : c1.categories = ([] : List Category) ∧ c1.heap = [] ∧
      c1.uiElements = 1 := by
    simp [c1, h0, mosaicChart, modifyAt, seriesFill, Category.setValue,
      Category.setSubCategoryValue, setSubCategoryValueList, findExisting, assignExisting]
  clear_value c1
  have h2 : c2.categories = ([] : List Category) ∧ c2.heap = [] ∧
      c2.uiElements = 2 := by
    simp [c2, h1, mosaicChart, modifyAt, seriesFill, Category.setValue,
      Category.setSubCategoryValue, setSubCategoryValueList, findExisting, assignExisting]
  clear_value c2
  have h3 : c3.categories = ([] : List Category) ∧ c3.heap = [] ∧
      c3.uiElements = 3 := by
    simp [c3, h2, mosaicChart, modifyAt, seriesFill, Category.setValue,
      Category.setSubCategoryValue, setSubCategoryValueList, findExisting, assignExisting]
  clear_value c3
  have h_exhaust : exhaust = 0 := by simp [exhaust, h3]
  clear_value exhaust
  have h4 : c4.categories = ([] : List Category) ∧ c4.heap = [1] ∧
      c4.uiElements = 3 := by
    simp [c4, h_exhaust, h3, mosaicChart, modifyAt, seriesFill, Category.setValue,
      Category.setSubCategoryValue, setSubCategoryValueList, findExisting, assignExisting]
  clear_value c4
  have h_noEffect : noEffect = 1 := by simp [noEffect, h4]
  clear_value noEffect
  have h5 : c5.categories = ([] : List Category) ∧ c5.heap = [1, 2] ∧
      c5.uiElements = 3 := by
    simp [c5, h_exhaust, h_noEffect, h4, mosaicChart, modifyAt, seriesFill, Category.setValue,
      Category.setSubCategoryValue, setSubCategoryValueList, findExisting, assignExisting]
  clear_value c5
  have h_refresh : refresh = 2 := by simp [refresh, h5]
  clear_value refresh
  have h6 : c6.categories = ([] : List Category) ∧ c6.heap = [1, 2, 3] ∧
      c6.uiElements = 3 := by
    simp [c6, h_exhaust, h_noEffect, h_refresh, h5, mosaicChart, modifyAt, seriesFill, Category.setValue,
      Category.setSubCategoryValue, setSubCategoryValueList, findExisting, assignExisting]
  clear_value c6
  have h_k1 : k1 = 0 := by simp [k1, h6]
  clear_value k1
  have h7 : c7.categories = ([{ name := "With caffeine", value := 48, tick := 3, subCategories := [] }] : List Category) ∧ c7.heap = [1, 2, 3] ∧
      c7.uiElements = 4 := by
    simp [c7, h_exhaust, h_noEffect, h_refresh, h_k1, h6, mosaicChart, modifyAt, seriesFill, Category.setValue,
      Category.setSubCategoryValue, setSubCategoryValueList, findExisting, assignExisting]
  clear_value c7
  have h8 : c8.categories = ([{ name := "With caffeine", value := 48, tick := 3, subCategories := [⟨0, 25, 4⟩] }] : List Category) ∧ c8.heap = [1, 2, 3] ∧
      c8.uiElements = 5 := by
    simp [c8, h_exhaust, h_noEffect, h_refresh, h_k1, h7, mosaicChart, modifyAt, seriesFill, Category.setValue,
      Category.setSubCategoryValue, setSubCategoryValueList, findExisting, assignExisting]
  clear_value c8
  have h9 : c9.categories = ([{ name := "With caffeine", value := 48, tick := 3, subCategories := [⟨0, 25, 4⟩, ⟨1, 35, 5⟩] }] : List Category) ∧ c9.heap = [1, 2, 3] ∧
      c9.uiElements = 6 := by
    simp [c9, h_exhaust, h_noEffect, h_refresh, h_k1, h8, mosaicChart, modifyAt, seriesFill, Category.setValue,
      Category.setSubCategoryValue, setSubCategoryValueList, findExisting, assignExisting]
  clear_value c9
  have h10 : c10.categories = ([{ name := "With caffeine", value := 48, tick := 3, subCategories := [⟨0, 25, 4⟩, ⟨1, 35, 5⟩, ⟨2, 40, 6⟩] }] : List Category) ∧ c10.heap = [1, 2, 3] ∧
      c10.uiElements = 7 := by
    simp [c10, h_exhaust, h_noEffect, h_refresh, h_k1, h9, mosaicChart, modifyAt, seriesFill, Category.setValue,
      Category.setSubCategoryValue, setSubCategoryValueList, findExisting, assignExisting]
  clear_value c10
  have h_k2 : k2 = 1 := by simp [k2, h10]
  clear_value k2
  have h11 : c11.categories = ([{ name := "With caffeine", value := 48, tick := 3, subCategories := [⟨0, 25, 4⟩, ⟨1, 35, 5⟩, ⟨2, 40, 6⟩] }, { name := "Decaffeinated", value := 32, tick := 7, subCategories := [] }] : List Category) ∧ c11.heap = [1, 2, 3] ∧
      c11.uiElements = 8 := by
    simp [c11, h_exhaust, h_noEffect, h_refresh, h_k1, h_k2, h10, mosaicChart, modifyAt, seriesFill, Category.setValue,
      Category.setSubCategoryValue, setSubCategoryValueList, findExisting, assignExisting]
  clear_value c11
  have h12 : c12.categories = ([{ name := "With caffeine", value := 48, tick := 3, subCategories := [⟨0, 25, 4⟩, ⟨1, 35, 5⟩, ⟨2, 40, 6⟩] }, { name := "Decaffeinated", value := 32, tick := 7, subCategories := [⟨0, 10, 8⟩] }] : List Category) ∧ c12.heap = [1, 2, 3] ∧
      c12.uiElements = 9 := by
    simp [c12, h_exhaust, h_noEffect, h_refresh, h_k1, h_k2, h11, mosaicChart, modifyAt, seriesFill, Category.setValue,
      Category.setSubCategoryValue, setSubCategoryValueList, findExisting, assignExisting]
  clear_value c12
  have h13 : c13.categories = ([{ name := "With caffeine", value := 48, tick := 3, subCategories := [⟨0, 25, 4⟩, ⟨1, 35, 5⟩, ⟨2, 40, 6⟩] }, { name := "Decaffeinated", value := 32, tick := 7, subCategories := [⟨0, 10, 8⟩, ⟨1, 45, 9⟩] }] : List Category) ∧ c13.heap = [1, 2, 3] ∧
      c13.uiElements = 10 := by
    simp [c13, h_exhaust, h_noEffect, h_refresh, h_k1, h_k2, h12, mosaicChart, modifyAt, seriesFill, Category.setValue,
      Category.setSubCategoryValue, setSubCategoryValueList, findExisting, assignExisting]
  clear_value c13
  have h14 : c14.categories = ([{ name := "With caffeine", value := 48, tick := 3, subCategories := [⟨0, 25, 4⟩, ⟨1, 35, 5⟩, ⟨2, 40, 6⟩] }, { name := "Decaffeinated", value := 32, tick := 7, subCategories := [⟨0, 10, 8⟩, ⟨1, 45, 9⟩, ⟨2, 45, 10⟩] }] : List Category) ∧ c14.heap = [1, 2, 3] ∧
      c14.uiElements = 11 := by
    simp [c14, h_exhaust, h_noEffect, h_refresh, h_k1, h_k2, h13, mosaicChart, modifyAt, seriesFill, Category.setValue,
      Category.setSubCategoryValue, setSubCategoryValueList, findExisting, assignExisting]
  clear_value c14
  have h_k3 : k3 = 2 := by simp [k3, h14]
  clear_value k3
  have h15 : c15.categories = ([{ name := "With caffeine", value := 48, tick := 3, subCategories := [⟨0, 25, 4⟩, ⟨1, 35, 5⟩, ⟨2, 40, 6⟩] }, { name := "Decaffeinated", value := 32, tick := 7, subCategories := [⟨0, 10, 8⟩, ⟨1, 45, 9⟩, ⟨2, 45, 10⟩] }, { name := "Placebo product", value := 20, tick := 11, subCategories := [] }] : List Category) ∧ c15.heap = [1, 2, 3] ∧
      c15.uiElements = 12 := by
    simp [c15, h_exhaust, h_noEffect, h_refresh, h_k1, h_k2, h_k3, h14, mosaicChart, modifyAt, seriesFill, Category.setValue,
      Category.setSubCategoryValue, setSubCategoryValueList, findExisting, assignExisting]
  clear_value c15
  have h16 : c16.categories = ([{ name := "With caffeine", value := 48, tick := 3, subCategories := [⟨0, 25, 4⟩, ⟨1, 35, 5⟩, ⟨2, 40, 6⟩] }, { name := "Decaffeinated", value := 32, tick := 7, subCategories := [⟨0, 10, 8⟩, ⟨1, 45, 9⟩, ⟨2, 45, 10⟩] }, { name := "Placebo product", value := 20, tick := 11, subCategories := [⟨0, 20, 12⟩] }] : List Category) ∧ c16.heap = [1, 2, 3] ∧
      c16.uiElements = 13 := by
    simp [c16, h_exhaust, h_noEffect, h_refresh, h_k1, h_k2, h_k3, h15, mosaicChart, modifyAt, seriesFill, Category.setValue,
      Category.setSubCategoryValue, setSubCategoryValueList, findExisting, assignExisting]
  clear_value c16
  have h17 : c17.categories = ([{ name := "With caffeine", value := 48, tick := 3, subCategories := [⟨0, 25, 4⟩, ⟨1, 35, 5⟩, ⟨2, 40, 6⟩] }, { name := "Decaffeinated", value := 32, tick := 7, subCategories := [⟨0, 10, 8⟩, ⟨1, 45, 9⟩, ⟨2, 45, 10⟩] }, { name := "Placebo product", value := 20, tick := 11, subCategories := [⟨0, 20, 12⟩, ⟨1, 50, 13⟩] }] : List Category) ∧ c17.heap = [1, 2, 3] ∧
      c17.uiElements = 14 := by
    simp [c17, h_exhaust, h_noEffect, h_refresh, h_k1, h_k2, h_k3, h16, mosaicChart, modifyAt, seriesFill, Category.setValue,
      Category.setSubCategoryValue, setSubCategoryValueList, findExisting, assignExisting]
  clear_value c17
  have h18 : c18.categories = ([{ name := "With caffeine", value := 48, tick := 3, subCategories := [⟨0, 25, 4⟩, ⟨1, 35, 5⟩, ⟨2, 40, 6⟩] }, { name := "Decaffeinated", value := 32, tick := 7, subCategories := [⟨0, 10, 8⟩, ⟨1, 45, 9⟩, ⟨2, 45, 10⟩] }, { name := "Placebo product", value := 20, tick := 11, subCategories := [⟨0, 20, 12⟩, ⟨1, 50, 13⟩, ⟨2, 30, 14⟩] }] : List Category) ∧ c18.heap = [1, 2, 3] ∧
      c18.uiElements = 15 := by
    simp [c18, h_exhaust, h_noEffect, h_refresh, h_k1, h_k2, h_k3, h17, mosaicChart, modifyAt, seriesFill, Category.setValue,
      Category.setSubCategoryValue, setSubCategoryValueList, findExisting, assignExisting]
  clear_value c18
  exact ⟨by simp [h18, exampleCategories, withCaffeine, decaffeinated, placeboProduct],
    by simp [h18, exampleHeap]⟩

/-- C5: when the category values sum to `S > 0`, the series that `_updateChart` builds is
the layout of the specification (one rectangle per entry with positive share in each
category with `T > 0`, at the sums of the shares before it, inset by the margin); for
the example data the widths are 48, 32, 20 and the x-offsets 0, 48, 80. -/
theorem updateChart_layout (heap : List FillStyle) (margin : ℚ) (px : PixelSize)
    (categories : List Category) :
    (sumCategoryValues categories > 0 →
      _updateChart heap margin px categories = layoutSpec heap margin px categories) ∧
    (exampleUsage px).categories = exampleCategories ∧
    exampleCategories.map (relativeCategoryValue (sumCategoryValues exampleCategories)) =
      [48, 32, 20] ∧
    (List.range 3).map
        (xPosAt heap margin px (sumCategoryValues exampleCategories) exampleCategories) =
      [0, 48, 80] := by
  refine ⟨updateChart_eq_layoutSpec heap margin px categories,
    (exampleUsage_categories px).1, ?_, ?_⟩
  · norm_num [exampleCategories, withCaffeine, decaffeinated, placeboProduct,
      sumCategoryValues, relativeCategoryValue]
  · have hr : List.range 3 = [0, 1, 2] := rfl
    rw [hr]
    simp only [List.map_cons, List.map_nil, xPosAt_eq]
    norm_num [exampleCategories, withCaffeine, decaffeinated, placeboProduct,
      sumCategoryValues, relativeCategoryValue]

theorem updateChart_layout_witness :
    sumCategoryValues exampleCategories > 0 ∧
      _updateChart exampleHeap 4 examplePx exampleCategories =
        layoutSpec exampleHeap 4 examplePx exampleCategories :=
  ⟨by norm_num [exampleCategories, withCaffeine, decaffeinated, placeboProduct,
      sumCategoryValues],
    (updateChart_layout exampleHeap 4 examplePx exampleCategories).1
      (by norm_num [exampleCategories, withCaffeine, decaffeinated, placeboProduct,
        sumCategoryValues])⟩

/-! ## Zero totals and zero shares -/

theorem categoryStep_of_sumSub_eq_zero (heap : List FillStyle) (margin : ℚ)
    (px : PixelSize) (sum : ℚ) (st : ℚ × List Figure) (c : Category)
    (h : sumSubCategoryValues c = 0) :
    categoryStep heap margin px sum st c = (st.1 + relativeCategoryValue sum c, st.2) := by
  simp [categoryStep, h]

/-- C6: if the category values sum to zero `_updateChart` builds no rectangle; and the
loop body adds no rectangle for a category whose subcategory values sum to zero (one
without entries included), so the series is the one the chart would have if that
category had no entries. -/
theorem zero_total_suppresses (heap : List FillStyle) (margin : ℚ) (px : PixelSize) :
    (∀ categories, sumCategoryValues categories = 0 →
      _updateChart heap margin px categories = []) ∧
    (∀ sum st c, sumSubCategoryValues c = 0 →
      (categoryStep heap margin px sum st c).2 = st.2) ∧
    (∀ sum st c, c.subCategories = [] →
      (categoryStep heap margin px sum st c).2 = st.2) ∧
    (∀ pre c post, sumSubCategoryValues c = 0 →
      _updateChart heap margin px (pre ++ c :: post) =
        _updateChart heap margin px (pre ++ { c with subCategories := [] } :: post)) := by
  refine ⟨?_, ?_, ?_, ?_⟩
  · intro categories h
    simp [_updateChart, h]
  · intro sum st c h
    rw [categoryStep_of_sumSub_eq_zero _ _ _ _ _ _ h]
  · intro sum st c h
    rw [categoryStep_of_sumSub_eq_zero _ _ _ _ _ _ (by simp [sumSubCategoryValues, h])]
  · intro pre c post h
    have hsum : sumCategoryValues (pre ++ c :: post) =
        sumCategoryValues (pre ++ { c with subCategories := [] } :: post) := by
      simp [sumCategoryValues_eq]
    unfold _updateChart categoryLoop
    simp only [← hsum, List.foldl_append, List.foldl_cons]
    rw [categoryStep_of_sumSub_eq_zero _ _ _ _ _ c h,
      categoryStep_of_sumSub_eq_zero _ _ _ _ _ { c with subCategories := [] }
        (by simp [sumSubCategoryValues])]
    rfl

theorem zero_total_suppresses_witness :
    sumSubCategoryValues
        { name := "B", value := 1, tick := 0, subCategories := [⟨0, 1, 1⟩, ⟨1, -1, 2⟩] } = 0 ∧
      _updateChart exampleHeap 4 examplePx
          ([withCaffeine] ++
            { name := "B", value := 1, tick := 0,
              subCategories := [⟨0, 1, 1⟩, ⟨1, -1, 2⟩] } :: [placeboProduct]) =
        _updateChart exampleHeap 4 examplePx
          ([withCaffeine] ++
            { ({ name := "B", value := 1, tick := 0,
                 subCategories := [⟨0, 1, 1⟩, ⟨1, -1, 2⟩] } : Category) with
              subCategories := [] } :: [placeboProduct]) :=
  ⟨by norm_num [sumSubCategoryValues],
    (zero_total_suppresses exampleHeap 4 examplePx).2.2.2 [withCaffeine]
      { name := "B", value := 1, tick := 0, subCategories := [⟨0, 1, 1⟩, ⟨1, -1, 2⟩] }
      [placeboProduct] (by norm_num [sumSubCategoryValues])⟩

/-- C7 fails on the code: in `zeroShareChart` the category B has value 0 (share 0) and an
entry of value 1, and after `setSubCategoryValue` the series holds a rectangle for B,
the second one, of width `0 - 2 * margin * px.x`, drawn at the right end of the chart. -/
theorem zero_share_category_has_rectangle :
    sumCategoryValues zeroShareChart.categories > 0 ∧
      (zeroShareChart.categories.map (fun c => c.value)) = [1, 0] ∧
      (zeroShareChart.categories.map
        (relativeCategoryValue (sumCategoryValues zeroShareChart.categories))) = [100, 0] ∧
      zeroShareChart.rectangles =
        [ { dimensions := { x := 0 + 4 * (1 / 10), y := 0 + 4 * (1 / 10),
                            width := 100 - 2 * 4 * (1 / 10),
                            height := 100 - 2 * 4 * (1 / 10) }
            fillStyle := some seriesFill },
          { dimensions := { x := 100 + 4 * (1 / 10), y := 0 + 4 * (1 / 10),
                            width := 0 - 2 * 4 * (1 / 10),
                            height := 100 - 2 * 4 * (1 / 10) }
            fillStyle := some seriesFill } ] := by
  norm_num [zeroShareChart, mosaicChart, modifyAt, Category.setValue,
    Category.setSubCategoryValue, setSubCategoryValueList, findExisting, assignExisting,
    _updateChart, categoryLoop, categoryStep, subCategoryStep, sumCategoryValues,
    sumSubCategoryValues, relativeCategoryValue, relativeSubCategoryValue,
    rectangleDimensions, examplePx, seriesFill]

/-! ## References that the chart did not create -/

theorem yPosAt_eq (heap : List FillStyle) (margin : ℚ) (px : PixelSize) (xPos sum : ℚ)
    (c : Category) (j : Nat) :
    yPosAt heap margin px xPos sum c j =
      ((c.subCategories.take j).map
        (relativeSubCategoryValue (sumSubCategoryValues c))).sum := by
  simp [yPosAt, subCategoryLoop_eq]

/-- Figure that the loop adds for the entry at position `k` of the category at position
`i` when its share is positive. -/
theorem figure_mem_updateChart (heap : List FillStyle) (margin : ℚ) (px : PixelSize)
    (categories : List Category) (i k : Nat) (c : Category) (e : SubCategoryValue)
    (hc : categories[i]? = some c) (he : c.subCategories[k]? = some e)
    (hS : sumCategoryValues categories > 0) (hT : sumSubCategoryValues c > 0)
    (hrel : relativeSubCategoryValue (sumSubCategoryValues c) e > 0) :
    ({ dimensions := rectangleDimensions margin px
        (xPosAt heap margin px (sumCategoryValues categories) categories i)
        (yPosAt heap margin px
          (xPosAt heap margin px (sumCategoryValues categories) categories i)
          (sumCategoryValues categories) c k)
        (relativeCategoryValue (sumCategoryValues categories) c)
        (relativeSubCategoryValue (sumSubCategoryValues c) e)
       fillStyle := heap[e.subCategory]? } : Figure) ∈
      _updateChart heap margin px categories := by
  unfold _updateChart
  simp only [hS, if_true]
  rw [categoryLoop_eq, xPosAt_eq, yPosAt_eq]
  refine List.mem_flatMap.mpr ⟨(i, c), List.mk_mem_enum_iff_getElem?.mpr hc, ?_⟩
  unfold categoryFigures
  simp only [hT, if_true]
  refine List.mem_flatMap.mpr ⟨(k, e), List.mk_mem_enum_iff_getElem?.mpr he, ?_⟩
  simp [entryFigures, hrel]

theorem setSubCategoryValueList_holds (s : Ref) (v : ℚ) (label : Nat)
    (l : List SubCategoryValue) :
    ∃ (k : Nat) (e : SubCategoryValue),
      (setSubCategoryValueList s v label l)[k]? = some e ∧ e.subCategory = s ∧
        e.value = v := by
  by_cases h : ∃ e ∈ l, e.subCategory = s
  · rw [setSubCategoryValueList_of_present s v label l h]
    obtain ⟨k, e, _, hes, _, hset, _⟩ := assignExisting_spec s v l h
    exact ⟨k, { e with value := v }, hset, hes, rfl⟩
  · have h' : ∀ e ∈ l, e.subCategory ≠ s := fun e he hes => h ⟨e, he, hes⟩
    rw [setSubCategoryValueList_of_absent s v label l h']
    exact ⟨l.length, ⟨s, v, label⟩, by simp, rfl, rfl⟩

/-! ## The series is always the full layout -/

theorem flatMap_congr_mem {α β : Type} (l : List α) (f g : α → List β)
    (h : ∀ a ∈ l, f a = g a) : l.flatMap f = l.flatMap g := by
  induction l with
  | nil => rfl
  | cons a l ih =>
    rw [List.flatMap_cons, List.flatMap_cons, h a (List.mem_cons_self _ _),
      ih (fun b hb => h b (List.mem_cons_of_mem _ hb))]

theorem mem_modifyAt {α : Type} (f : α → α) (l : List α) (i : Nat) (b : α)
    (h : b ∈ modifyAt f l i) : b ∈ l ∨ ∃ a ∈ l, b = f a := by
  induction l generalizing i with
  | nil => simp [modifyAt] at h
  | cons a l ih =>
    cases i with
    | zero =>
      simp only [modifyAt, List.mem_cons] at h
      rcases h with rfl | h
      · exact Or.inr ⟨a, List.mem_cons_self _ _, rfl⟩
      · exact Or.inl (List.mem_cons_of_mem _ h)
    | succ i =>
      simp only [modifyAt, List.mem_cons] at h
      rcases h with rfl | h
      · exact Or.inl (List.mem_cons_self _ _)
      · rcases ih i h with h | ⟨x, hx, rfl⟩
        · exact Or.inl (List.mem_cons_of_mem _ h)
        · exact Or.inr ⟨x, List.mem_cons_of_mem _ hx, rfl⟩

theorem mem_setSubCategoryValueList (s : Ref) (v : ℚ) (label : Nat)
    (l : List SubCategoryValue) (e : SubCategoryValue)
    (h : e ∈ setSubCategoryValueList s v label l) :
    e.subCategory = s ∨ ∃ a ∈ l, a.subCategory = e.subCategory := by
  by_cases hp : ∃ a ∈ l, a.subCategory = s
  · rw [setSubCategoryValueList_of_present s v label l hp] at h
    have hm : e.subCategory ∈ (assignExisting s v l).map (fun a => a.subCategory) :=
      List.mem_map.mpr ⟨e, h, rfl⟩
    rw [assignExisting_map_subCategory] at hm
    obtain ⟨a, ha, hae⟩ := List.mem_map.mp hm
    exact Or.inr ⟨a, ha, hae⟩
  · have h' : ∀ a ∈ l, a.subCategory ≠ s := fun a ha has => hp ⟨a, ha, has⟩
    rw [setSubCategoryValueList_of_absent s v label l h'] at h
    rcases List.mem_append.mp h with h | h
    · exact Or.inr ⟨e, h, rfl⟩
    · simp only [List.mem_singleton] at h
      exact Or.inl (by rw [h])

/-- Pushing a category with value 0 and no entries does not change the layout. -/
theorem updateChart_push_category (heap : List FillStyle) (margin : ℚ) (px : PixelSize)
    (categories : List Category) (name : String) (tick : Nat) :
    _updateChart heap margin px
        (categories ++ [{ name := name, value := 0, tick := tick, subCategories := [] }]) =
      _updateChart heap margin px categories := by
  have hsum : sumCategoryValues
      (categories ++ [{ name := name, value := 0, tick := tick, subCategories := [] }]) =
      sumCategoryValues categories := by
    simp [sumCategoryValues_eq]
  unfold _updateChart categoryLoop
  simp only [hsum, List.foldl_append, List.foldl_cons, List.foldl_nil]
  rw [categoryStep_of_sumSub_eq_zero _ _ _ _ _ _ (by simp [sumSubCategoryValues])]

/-- Creating an object does not change the layout of entries that refer to objects that
exist already. -/
theorem updateChart_push_object (heap : List FillStyle) (f : FillStyle) (margin : ℚ)
    (px : PixelSize) (categories : List Category)
    (h : ∀ k ∈ categories, ∀ e ∈ k.subCategories, e.subCategory < heap.length) :
    _updateChart (heap ++ [f]) margin px categories =
      _updateChart heap margin px categories := by
  unfold _updateChart
  simp only [categoryLoop_eq]
  congr 1
  apply flatMap_congr_mem
  intro p hp
  have hk : p.2 ∈ categories := List.snd_mem_of_mem_enum hp
  unfold categoryFigures
  congr 1
  apply flatMap_congr_mem
  intro q hq
  have he : q.2 ∈ p.2.subCategories := List.snd_mem_of_mem_enum hq
  unfold entryFigures
  rw [List.getElem?_append_left (h p.2 hk q.2 he)]

theorem refsExist_apply (px : PixelSize) (c : Chart) (op : Operation)
    (h : RefsExist c) (hop : op.admissible c = true) : RefsExist (op.apply px c) := by
  cases op with
  | addCategory name =>
    intro k hk e he
    simp only [Operation.apply, addCategory_categories, addCategory_heap,
      List.mem_append, List.mem_singleton] at hk ⊢
    rcases hk with hk | rfl
    · exact h k hk e he
    · simp at he
  | addSubCategory =>
    intro k hk e he
    simp only [Operation.apply, addSubCategory_categories, addSubCategory_heap,
      List.length_append, List.length_singleton] at hk ⊢
    exact Nat.lt_succ_of_lt (h k hk e he)
  | addYCategory name value => exact h
  | setCategoryValue i value =>
    intro k hk e he
    simp only [Operation.apply, setCategoryValue_categories, setCategoryValue_heap] at hk ⊢
    rcases mem_modifyAt _ _ _ _ hk with hk | ⟨a, ha, rfl⟩
    · exact h k hk e he
    · exact h a ha e he
  | setSubCategoryValue i s value =>
    intro k hk e he
    simp only [Operation.admissible, Bool.and_eq_true, decide_eq_true_eq] at hop
    simp only [Operation.apply, setSubCategoryValue_categories,
      setSubCategoryValue_heap] at hk ⊢
    rcases mem_modifyAt _ _ _ _ hk with hk | ⟨a, ha, rfl⟩
    · exact h k hk e he
    · rcases mem_setSubCategoryValueList s value c.uiElements a.subCategories e he with
        hs | ⟨b, hb, hbe⟩
      · rw [hs]; exact hop.2
      · rw [← hbe]; exact h a ha b hb
  | setFillStyle r fillStyle =>
    intro k hk e he
    simp only [Operation.apply, setFillStyle_categories, setFillStyle_heap,
      length_modifyAt] at hk ⊢
    exact h k hk e he
  | setCategoryYValue k value => exact h

theorem upToDate_apply (px : PixelSize) (c : Chart) (op : Operation)
    (h : UpToDate px c) (hr : RefsExist c) (hop : op.admissible c = true) :
    UpToDate px (op.apply px c) := by
  cases op with
  | addCategory name =>
    simp only [UpToDate, Operation.apply, addCategory_rectangles, addCategory_heap,
      addCategory_margin, addCategory_categories, updateChart_push_category]
    exact h
  | addSubCategory =>
    simp only [UpToDate, Operation.apply, addSubCategory_rectangles, addSubCategory_heap,
      addSubCategory_margin, addSubCategory_categories]
    rw [updateChart_push_object c.heap seriesFill c.margin px c.categories hr]
    exact h
  | addYCategory name value => exact h
  | setCategoryValue i value => rfl
  | setSubCategoryValue i s value => rfl
  | setFillStyle r fillStyle =>
    simp only [Operation.admissible, decide_eq_true_eq] at hop
    exact setFillStyle_rectangles px c r fillStyle hop
  | setCategoryYValue k value => rfl

theorem reachable_invariant (px : PixelSize) (c : Chart) (h : Reachable px c) :
    UpToDate px c ∧ RefsExist c := by
  induction h with
  | init heap =>
    refine ⟨?_, ?_⟩
    · simp [UpToDate, mosaicChart, _updateChart, sumCategoryValues]
    · intro k hk
      simp [mosaicChart] at hk
  | step c op _ hop ih =>
    exact ⟨upToDate_apply px c op ih.1 ih.2 hop, refsExist_apply px c op ih.2 hop⟩

/-! ## Placement follows insertion order -/

theorem sum_take_succ {α : Type} (f : α → ℚ) (l : List α) (i : Nat) (a : α)
    (h : l[i]? = some a) :
    ((l.take (i + 1)).map f).sum = ((l.take i).map f).sum + f a := by
  induction l generalizing i with
  | nil => simp at h
  | cons b l ih =>
    cases i with
    | zero =>
      simp at h
      simp [h]
    | succ i =>
      have h' : l[i]? = some a := by simpa using h
      rw [List.take_succ_cons, List.map_cons, List.sum_cons, ih i h', List.take_succ_cons,
        List.map_cons, List.sum_cons, add_assoc]

theorem sum_take_le {α : Type} (f : α → ℚ) (l : List α) (hf : ∀ a ∈ l, 0 ≤ f a)
    (i j : Nat) (h : i ≤ j) :
    ((l.take i).map f).sum ≤ ((l.take j).map f).sum := by
  induction l generalizing i j with
  | nil => simp
  | cons b l ih =>
    cases i with
    | zero =>
      rw [List.take_zero, List.map_nil, List.sum_nil]
      apply List.sum_nonneg
      intro x hx
      obtain ⟨a, ha, rfl⟩ := List.mem_map.mp hx
      exact hf a (List.mem_of_mem_take ha)
    | succ i =>
      cases j with
      | zero => exact absurd h (by omega)
      | succ j =>
        simp only [List.take_succ_cons, List.map_cons, List.sum_cons]
        have := ih (fun a ha => hf a (List.mem_cons_of_mem _ ha)) i j (by omega)
        linarith

theorem sum_take_le_total {α : Type} (f : α → ℚ) (l : List α) (hf : ∀ a ∈ l, 0 ≤ f a)
    (j : Nat) : ((l.take j).map f).sum ≤ (l.map f).sum := by
  have h := sum_take_le f l hf j (max j l.length) (le_max_left _ _)
  rwa [List.take_of_length_le (le_max_right _ _)] at h

theorem sum_take_nonneg {α : Type} (f : α → ℚ) (l : List α) (hf : ∀ a ∈ l, 0 ≤ f a)
    (j : Nat) : 0 ≤ ((l.take j).map f).sum := by
  have h := sum_take_le f l hf 0 j (Nat.zero_le _)
  simpa using h

/-- Offsets of consecutive cells of a loop whose advances are non-negative shares of a
positive total: each cell starts at or after 0, ends at or before 100, and ends no
later than any later cell begins. -/
theorem cells_ordered {α : Type} (f : α → ℚ) (t : ℚ) (ht : t > 0) (l : List α)
    (hf : ∀ a ∈ l, 0 ≤ f a) (hsum : (l.map f).sum = t) (i : Nat) (a : α)
    (ha : l[i]? = some a) :
    0 ≤ ((l.take i).map (fun b => 100 * f b / t)).sum ∧
    ((l.take i).map (fun b => 100 * f b / t)).sum + 100 * f a / t ≤ 100 ∧
    ∀ j, i < j →
      ((l.take i).map (fun b => 100 * f b / t)).sum + 100 * f a / t ≤
        ((l.take j).map (fun b => 100 * f b / t)).sum := by
  have hg : ∀ b ∈ l, 0 ≤ (fun b => 100 * f b / t) b := by
    intro b hb
    have := hf b hb
    show 0 ≤ 100 * f b / t
    positivity
  have htot : (l.map (fun b => 100 * f b / t)).sum = 100 := by
    rw [sum_map_share, hsum]
    field_simp
  have hsucc := sum_take_succ (fun b => 100 * f b / t) l i a ha
  refine ⟨sum_take_nonneg _ l hg i, ?_, ?_⟩
  · rw [← hsucc]
    exact le_of_le_of_eq (sum_take_le_total _ l hg (i + 1)) htot
  · intro j hij
    rw [← hsucc]
    exact sum_take_le _ l hg (i + 1) j hij

/-- C10: for non-negative category and subcategory values and a positive category total,
the x cursor at each category is the sum of the widths of the categories before it and
the y cursor at each entry the sum of the heights of the entries before it; each cell
(before the margin inset) lies within 0..100 in both directions and ends no later than
any later cell of its row of categories, or of its category, begins. -/
theorem insertion_order_placement (heap : List FillStyle) (margin : ℚ) (px : PixelSize)
    (categories : List Category)
    (hv : ∀ c ∈ categories, 0 ≤ c.value)
    (hsv : ∀ c ∈ categories, ∀ e ∈ c.subCategories, 0 ≤ e.value)
    (hS : sumCategoryValues categories > 0) :
    (∀ i, xPosAt heap margin px (sumCategoryValues categories) categories i =
      ((categories.take i).map
        (relativeCategoryValue (sumCategoryValues categories))).sum) ∧
    (∀ i c, categories[i]? = some c →
      0 ≤ xPosAt heap margin px (sumCategoryValues categories) categories i ∧
      xPosAt heap margin px (sumCategoryValues categories) categories i +
          relativeCategoryValue (sumCategoryValues categories) c ≤ 100 ∧
      (∀ j, i < j →
        xPosAt heap margin px (sumCategoryValues categories) categories i +
            relativeCategoryValue (sumCategoryValues categories) c ≤
          xPosAt heap margin px (sumCategoryValues categories) categories j)) ∧
    (∀ i c, categories[i]? = some c → sumSubCategoryValues c > 0 →
      (∀ k, yPosAt heap margin px
            (xPosAt heap margin px (sumCategoryValues categories) categories i)
            (sumCategoryValues categories) c k =
          ((c.subCategories.take k).map
            (relativeSubCategoryValue (sumSubCategoryValues c))).sum) ∧
      (∀ k e, c.subCategories[k]? = some e →
        0 ≤ yPosAt heap margin px
            (xPosAt heap margin px (sumCategoryValues categories) categories i)
            (sumCategoryValues categories) c k ∧
        yPosAt heap margin px
            (xPosAt heap margin px (sumCategoryValues categories) categories i)
            (sumCategoryValues categories) c k +
          relativeSubCategoryValue (sumSubCategoryValues c) e ≤ 100 ∧
        (∀ l, k < l →
          yPosAt heap margin px
              (xPosAt heap margin px (sumCategoryValues categories) categories i)
              (sumCategoryValues categories) c k +
            relativeSubCategoryValue (sumSubCategoryValues c) e ≤
          yPosAt heap margin px
              (xPosAt heap margin px (sumCategoryValues categories) categories i)
              (sumCategoryValues categories) c l))) := by
  refine ⟨fun i => xPosAt_eq _ _ _ _ _ i, ?_, ?_⟩
  · intro i c hc
    simp only [xPosAt_eq]
    exact cells_ordered (fun k : Category => k.value) (sumCategoryValues categories) hS
      categories hv (sumCategoryValues_eq categories).symm i c hc
  · intro i c hc hT
    have hmem : c ∈ categories := List.getElem?_mem hc
    refine ⟨fun k => yPosAt_eq _ _ _ _ _ c k, ?_⟩
    intro k e he
    simp only [yPosAt_eq]
    exact cells_ordered (fun d : SubCategoryValue => d.value) (sumSubCategoryValues c) hT
      c.subCategories (hsv c hmem) (sumSubCategoryValues_eq c).symm k e he

theorem insertion_order_placement_witness :
    (∀ c ∈ exampleCategories, 0 ≤ c.value) ∧
      (∀ c ∈ exampleCategories, ∀ e ∈ c.subCategories, 0 ≤ e.value) ∧
      sumCategoryValues exampleCategories > 0 ∧
      (xPosAt exampleHeap 4 examplePx (sumCategoryValues exampleCategories)
            exampleCategories 1 +
          relativeCategoryValue (sumCategoryValues exampleCategories) decaffeinated ≤
        xPosAt exampleHeap 4 examplePx (sumCategoryValues exampleCategories)
          exampleCategories 2) :=
  ⟨by norm_num [exampleCategories, withCaffeine, decaffeinated, placeboProduct],
    by norm_num [exampleCategories, withCaffeine, decaffeinated, placeboProduct],
    by norm_num [exampleCategories, withCaffeine, decaffeinated, placeboProduct,
      sumCategoryValues],
    ((insertion_order_placement exampleHeap 4 examplePx exampleCategories
      (by norm_num [exampleCategories, withCaffeine, decaffeinated, placeboProduct])
      (by norm_num [exampleCategories, withCaffeine, decaffeinated, placeboProduct])
      (by norm_num [exampleCategories, withCaffeine, decaffeinated, placeboProduct,
        sumCategoryValues])).2.1 1 decaffeinated rfl).2.2 2 (by decide)⟩

/-! ## The code on object arguments is the code above -/

theorem modifyAt_map {α β : Type} (f : α → β) (g : β → β) (h : α → α)
    (hfg : ∀ a, g (f a) = f (h a)) (l : List α) (i : Nat) :
    modifyAt g (l.map f) i = (modifyAt h l i).map f := by
  induction l generalizing i with
  | nil => simp [modifyAt]
  | cons a l ih => cases i <;> simp [modifyAt, hfg, ih]

theorem raw_sumSubCategoryValues_toRaw (c : Category) :
    Raw.sumSubCategoryValues c.toRaw = sumSubCategoryValues c := by
  simp [Raw.sumSubCategoryValues, sumSubCategoryValues, Category.toRaw, List.foldl_map,
    SubCategoryValue.toRaw]

theorem raw_sumCategoryValues_toRaw (categories : List Category) :
    Raw.sumCategoryValues (categories.map Category.toRaw) = sumCategoryValues categories := by
  simp [Raw.sumCategoryValues, sumCategoryValues, Category.toRaw, List.foldl_map]

theorem raw_subCategoryStep_toRaw (heap : List FillStyle) (margin : ℚ) (px : PixelSize)
    (xPos relCat sumSub : ℚ) (y : ℚ) (r : List Figure) (e : SubCategoryValue) :
    Raw.subCategoryStep heap margin px xPos relCat sumSub (y, r.map Raw.Figure.styled)
        e.toRaw =
      Except.ok ((subCategoryStep heap margin px xPos relCat sumSub (y, r) e).1,
        (subCategoryStep heap margin px xPos relCat sumSub (y, r) e).2.map
          Raw.Figure.styled) := by
  unfold Raw.subCategoryStep subCategoryStep relativeSubCategoryValue SubCategoryValue.toRaw
  by_cases h : 100 * e.value / sumSub > 0 <;> simp [h]

theorem raw_subCategoryLoop_toRaw (heap : List FillStyle) (margin : ℚ) (px : PixelSize)
    (xPos relCat sumSub : ℚ) (l : List SubCategoryValue) (y : ℚ) (r : List Figure) :
    Raw.subCategoryLoop heap margin px xPos relCat sumSub (y, r.map Raw.Figure.styled)
        (l.map SubCategoryValue.toRaw) =
      Except.ok ((l.foldl (subCategoryStep heap margin px xPos relCat sumSub) (y, r)).1,
        (l.foldl (subCategoryStep heap margin px xPos relCat sumSub) (y, r)).2.map
          Raw.Figure.styled) := by
  induction l generalizing y r with
  | nil => rfl
  | cons e l ih =>
    rw [List.map_cons, Raw.subCategoryLoop, raw_subCategoryStep_toRaw]
    exact ih _ _

theorem raw_categoryStep_toRaw (heap : List FillStyle) (margin : ℚ) (px : PixelSize)
    (sum : ℚ) (x : ℚ) (r : List Figure) (c : Category) :
    Raw.categoryStep heap margin px sum (x, r.map Raw.Figure.styled) c.toRaw =
      Except.ok ((categoryStep heap margin px sum (x, r) c).1,
        (categoryStep heap margin px sum (x, r) c).2.map Raw.Figure.styled) := by
  unfold Raw.categoryStep categoryStep
  rw [raw_sumSubCategoryValues_toRaw]
  by_cases h : sumSubCategoryValues c > 0
  · have hl := raw_subCategoryLoop_toRaw heap margin px x (100 * c.value / sum)
      (sumSubCategoryValues c) c.subCategories 0 r
    simp only [h, if_true]
    have hc : c.toRaw.subCategories = c.subCategories.map SubCategoryValue.toRaw := rfl
    have hv : c.toRaw.value = c.value := rfl
    rw [hc, hv, hl]
    rfl
  · simp only [h, if_false]
    rfl

theorem raw_categoryLoop_toRaw (heap : List FillStyle) (margin : ℚ) (px : PixelSize)
    (sum : ℚ) (l : List Category) (x : ℚ) (r : List Figure) :
    Raw.categoryLoop heap margin px sum (x, r.map Raw.Figure.styled)
        (l.map Category.toRaw) =
      Except.ok ((l.foldl (categoryStep heap margin px sum) (x, r)).1,
        (l.foldl (categoryStep heap margin px sum) (x, r)).2.map Raw.Figure.styled) := by
  induction l generalizing x r with
  | nil => rfl
  | cons c l ih =>
    rw [List.map_cons, Raw.categoryLoop, raw_categoryStep_toRaw]
    exact ih _ _

/-- On entries that refer to objects, the call `_updateChart()` does not throw and leaves
the series that `_updateChart` above computes. -/
theorem raw_updateChart_toRaw (heap : List FillStyle) (margin : ℚ) (px : PixelSize)
    (categories : List Category) :
    Raw._updateChart heap margin px (categories.map Category.toRaw) =
      ((_updateChart heap margin px categories).map Raw.Figure.styled, false) := by
  unfold Raw._updateChart _updateChart categoryLoop
  rw [raw_sumCategoryValues_toRaw]
  by_cases h : sumCategoryValues categories > 0
  · have hl := raw_categoryLoop_toRaw heap margin px (sumCategoryValues categories)
      categories 0 []
    simp only [List.map_nil] at hl
    simp only [h, if_true, hl]
  · simp only [h, if_false, List.map_nil]

theorem raw_findExisting_toRaw (s : Ref) (l : List SubCategoryValue) :
    Raw.findExisting (Raw.Argument.object s) (l.map SubCategoryValue.toRaw) =
      (findExisting s l).map SubCategoryValue.toRaw := by
  induction l with
  | nil => rfl
  | cons a l ih =>
    unfold Raw.findExisting findExisting at ih ⊢
    by_cases h : a.subCategory = s
    · simp [SubCategoryValue.toRaw, h]
    · simp [SubCategoryValue.toRaw, h] at ih ⊢
      exact ih

theorem raw_assignExisting_toRaw (s : Ref) (v : ℚ) (l : List SubCategoryValue) :
    Raw.assignExisting (Raw.Argument.object s) v (l.map SubCategoryValue.toRaw) =
      (assignExisting s v l).map SubCategoryValue.toRaw := by
  induction l with
  | nil => rfl
  | cons a l ih =>
    by_cases h : a.subCategory = s
    · simp [Raw.assignExisting, assignExisting, SubCategoryValue.toRaw, h]
    · simp only [List.map_cons, Raw.assignExisting, assignExisting, h, if_false]
      have h' : ¬ (SubCategoryValue.toRaw a).subCategory = Raw.Argument.object s := by
        simp [SubCategoryValue.toRaw, h]
      rw [if_neg h', ih]

theorem raw_setSubCategoryValueList_toRaw (s : Ref) (v : ℚ) (label : Nat)
    (l : List SubCategoryValue) :
    Raw.setSubCategoryValueList (Raw.Argument.object s) v label
        (l.map SubCategoryValue.toRaw) =
      (setSubCategoryValueList s v label l).map SubCategoryValue.toRaw := by
  unfold Raw.setSubCategoryValueList setSubCategoryValueList
  rw [raw_findExisting_toRaw]
  cases findExisting s l with
  | none => simp [SubCategoryValue.toRaw]
  | some x => simp [raw_assignExisting_toRaw]

theorem raw_refresh_toRaw (px : PixelSize) (c : Chart) :
    Raw.Chart.refresh px c.toRaw =
      { chart := (Chart.refresh px c).toRaw, typeError := false } := by
  unfold Raw.Chart.refresh Chart.refresh Chart.toRaw
  simp only [raw_updateChart_toRaw]

theorem raw_setCategoryValue_toRaw (px : PixelSize) (c : Chart) (i : Nat) (v : ℚ) :
    Raw.setCategoryValue px c.toRaw i v =
      { chart := (setCategoryValue px c i v).toRaw, typeError := false } := by
  unfold Raw.setCategoryValue setCategoryValue
  rw [← raw_refresh_toRaw]
  congr 1
  simp only [Chart.toRaw]
  rw [modifyAt_map Category.toRaw (Raw.Category.setValue v) (Category.setValue v)
    (fun a => rfl)]

theorem raw_setSubCategoryValue_toRaw (px : PixelSize) (c : Chart) (i : Nat) (s : Ref)
    (v : ℚ) :
    Raw.setSubCategoryValue px c.toRaw i (Raw.Argument.object s) v =
      { chart := (setSubCategoryValue px c i s v).toRaw, typeError := false } := by
  unfold Raw.setSubCategoryValue setSubCategoryValue
  rw [← raw_refresh_toRaw]
  have hnew : (((c.toRaw.categories[i]?).bind
      (fun k => Raw.findExisting (Raw.Argument.object s) k.subCategories)).isNone) =
      (((c.categories[i]?).bind (fun k => findExisting s k.subCategories)).isNone) := by
    simp only [Chart.toRaw, List.getElem?_map]
    cases c.categories[i]? with
    | none => rfl
    | some k =>
      simp only [Option.map_some', Option.some_bind]
      have hk : k.toRaw.subCategories = k.subCategories.map SubCategoryValue.toRaw := rfl
      rw [hk, raw_findExisting_toRaw]
      cases findExisting s k.subCategories <;> rfl
  simp only [hnew]
  simp only [Chart.toRaw]
  rw [modifyAt_map Category.toRaw
    (Raw.Category.setSubCategoryValue (Raw.Argument.object s) v c.uiElements)
    (Category.setSubCategoryValue s v c.uiElements)]
  intro a
  simp only [Raw.Category.setSubCategoryValue, Category.setSubCategoryValue, Category.toRaw,
    raw_setSubCategoryValueList_toRaw]

theorem raw_setFillStyle_toRaw (px : PixelSize) (c : Chart) (r : Ref) (f : FillStyle) :
    Raw.setFillStyle px c.toRaw r f =
      { chart := (setFillStyle px c r f).toRaw, typeError := false } := by
  unfold Raw.setFillStyle setFillStyle
  have hs : c.toRaw.subCategories = c.subCategories := rfl
  rw [hs]
  by_cases h : r ∈ c.subCategories
  · rw [if_pos h, if_pos h, ← raw_refresh_toRaw]
    rfl
  · rw [if_neg h, if_neg h]
    rfl

theorem raw_setCategoryYValue_toRaw (px : PixelSize) (c : Chart) (k : Nat) (v : ℚ) :
    Raw.setCategoryYValue px c.toRaw k v =
      { chart := (setCategoryYValue px c k v).toRaw, typeError := false } := by
  unfold Raw.setCategoryYValue setCategoryYValue
  rw [← raw_refresh_toRaw]
  rfl

/-- An operation whose `subCategory` argument is an object does to the state what the
operation above does, and does not throw. -/
theorem raw_apply_toRaw (px : PixelSize) (c : Chart) (op : Operation) :
    op.toRaw.apply px c.toRaw = { chart := (op.apply px c).toRaw, typeError := false } := by
  cases op with
  | addCategory name =>
    simp [Operation.toRaw, Raw.Operation.apply, Operation.apply, Raw.addCategory, addCategory,
      Chart.toRaw, Category.toRaw]
  | addSubCategory =>
    simp [Operation.toRaw, Raw.Operation.apply, Operation.apply, Raw.addSubCategory,
      addSubCategory, Chart.toRaw]
  | addYCategory name value =>
    simp [Operation.toRaw, Raw.Operation.apply, Operation.apply, Raw.addYCategory,
      addYCategory, Chart.toRaw]
  | setCategoryValue i value => exact raw_setCategoryValue_toRaw px c i value
  | setSubCategoryValue i s value => exact raw_setSubCategoryValue_toRaw px c i s value
  | setFillStyle r fillStyle => exact raw_setFillStyle_toRaw px c r fillStyle
  | setCategoryYValue k value => exact raw_setCategoryYValue_toRaw px c k value

theorem raw_admissible_toRaw (c : Chart) (op : Operation) :
    op.toRaw.admissible c.toRaw = op.admissible c := by
  cases op <;> simp [Operation.toRaw, Raw.Operation.admissible, Operation.admissible,
    Chart.toRaw]

/-- A caller's operation that keeps to the conditions is an operation on objects. -/
theorem raw_admissible_is_object (c : Raw.Chart) (op : Raw.Operation)
    (h : op.admissible c = true) : ∃ op0 : Operation, op = op0.toRaw := by
  cases op with
  | addCategory name => exact ⟨Operation.addCategory name, rfl⟩
  | addSubCategory => exact ⟨Operation.addSubCategory, rfl⟩
  | addYCategory name value => exact ⟨Operation.addYCategory name value, rfl⟩
  | setCategoryValue i value => exact ⟨Operation.setCategoryValue i value, rfl⟩
  | setSubCategoryValue i s value =>
    cases s with
    | nullish => simp [Raw.Operation.admissible] at h
    | object r => exact ⟨Operation.setSubCategoryValue i r value, rfl⟩
  | setFillStyle r fillStyle => exact ⟨Operation.setFillStyle r fillStyle, rfl⟩
  | setCategoryYValue k value => exact ⟨Operation.setCategoryYValue k value, rfl⟩

theorem raw_reachable_toRaw (px : PixelSize) (c : Raw.Chart) (h : Raw.Reachable px c) :
    ∃ b : Chart, Reachable px b ∧ c = b.toRaw := by
  induction h with
  | init heap => exact ⟨mosaicChart heap, Reachable.init heap, rfl⟩
  | step c op _ hop ih =>
    obtain ⟨b, hb, rfl⟩ := ih
    obtain ⟨op0, rfl⟩ := raw_admissible_is_object _ op hop
    rw [raw_admissible_toRaw] at hop
    exact ⟨op0.apply px b, Reachable.step b op0 hb hop, by rw [raw_apply_toRaw]⟩

/-! ## References that the chart did not create, on any argument -/

/-- C8 as stated fails, in both halves.  In `foreignChart` the reference 0 is not in the
chart's `subCategories` list, and after `setSubCategoryValue` with it the series holds a
rectangle for it (the whole chart area inset by the margin, with the fill style of that
object).  And with `undefined` or `null` the call stores the entry, adds its rectangle
and throws a TypeError before the rectangle gets a fill style. -/
theorem unknown_reference_counterexample :
    (0 : Ref) ∉ foreignChart.subCategories ∧
      (setSubCategoryValue examplePx foreignChart 0 0 5).rectangles =
        [ { dimensions := { x := 0 + 4 * (1 / 10), y := 0 + 4 * (1 / 10),
                            width := 100 - 2 * 4 * (1 / 10),
                            height := 100 - 2 * 4 * (1 / 10) }
            fillStyle := some 7 } ] ∧
      (Raw.setSubCategoryValue examplePx foreignChart.toRaw 0 (Raw.Argument.object 0) 5).typeError
        = false ∧
      (Raw.setSubCategoryValue examplePx foreignChart.toRaw 0
          (Raw.Argument.object 0) 5).chart.rectangles =
        [ Raw.Figure.styled
            { dimensions := { x := 0 + 4 * (1 / 10), y := 0 + 4 * (1 / 10),
                              width := 100 - 2 * 4 * (1 / 10),
                              height := 100 - 2 * 4 * (1 / 10) }
              fillStyle := some 7 } ] ∧
      (Raw.setSubCategoryValue examplePx foreignChart.toRaw 0 Raw.Argument.nullish 5).typeError
        = true ∧
      (Raw.setSubCategoryValue examplePx foreignChart.toRaw 0
          Raw.Argument.nullish 5).chart.categories.map (fun k => k.subCategories) =
        [[{ subCategory := Raw.Argument.nullish, value := 5, label := 1 }]] ∧
      (Raw.setSubCategoryValue examplePx foreignChart.toRaw 0
          Raw.Argument.nullish 5).chart.rectangles =
        [ Raw.Figure.unstyled
            { x := 0 + 4 * (1 / 10), y := 0 + 4 * (1 / 10),
              width := 100 - 2 * 4 * (1 / 10),
              height := 100 - 2 * 4 * (1 / 10) } ] := by
  refine ⟨?_, ?_, ?_, ?_, ?_, ?_, ?_⟩
  · norm_num [foreignChart, mosaicChart]
  · norm_num [foreignChart, mosaicChart, modifyAt, Category.setValue,
      Category.setSubCategoryValue, setSubCategoryValueList, findExisting, assignExisting,
      _updateChart, categoryLoop, categoryStep, subCategoryStep, sumCategoryValues,
      sumSubCategoryValues, relativeCategoryValue, relativeSubCategoryValue,
      rectangleDimensions, examplePx]
  · rw [raw_setSubCategoryValue_toRaw]
  · rw [raw_setSubCategoryValue_toRaw]
    norm_num [Chart.toRaw, foreignChart, mosaicChart, modifyAt, Category.setValue,
      Category.setSubCategoryValue, setSubCategoryValueList, findExisting, assignExisting,
      _updateChart, categoryLoop, categoryStep, subCategoryStep, sumCategoryValues,
      sumSubCategoryValues, relativeCategoryValue, relativeSubCategoryValue,
      rectangleDimensions, examplePx]
  · norm_num [Raw.setSubCategoryValue, Raw.Chart.refresh, Raw._updateChart, Raw.categoryLoop,
      Raw.categoryStep, Raw.subCategoryLoop, Raw.subCategoryStep, Raw.sumCategoryValues,
      Raw.sumSubCategoryValues, Raw.Category.setSubCategoryValue,
      Raw.setSubCategoryValueList, Raw.findExisting, Raw.assignExisting, Chart.toRaw,
      Category.toRaw, SubCategoryValue.toRaw, foreignChart, mosaicChart, modifyAt,
      Category.setValue, rectangleDimensions, examplePx]
  · norm_num [Raw.setSubCategoryValue, Raw.Chart.refresh, Raw.Category.setSubCategoryValue,
      Raw.setSubCategoryValueList, Raw.findExisting, Raw.assignExisting, Chart.toRaw,
      Category.toRaw, SubCategoryValue.toRaw, foreignChart, mosaicChart, modifyAt,
      Category.setValue]
  · norm_num [Raw.setSubCategoryValue, Raw.Chart.refresh, Raw._updateChart, Raw.categoryLoop,
      Raw.categoryStep, Raw.subCategoryLoop, Raw.subCategoryStep, Raw.sumCategoryValues,
      Raw.sumSubCategoryValues, Raw.Category.setSubCategoryValue,
      Raw.setSubCategoryValueList, Raw.findExisting, Raw.assignExisting, Chart.toRaw,
      Category.toRaw, SubCategoryValue.toRaw, foreignChart, mosaicChart, modifyAt,
      Category.setValue, rectangleDimensions, examplePx]

/-- C8 (amended): `setSubCategoryValue` never consults the chart's `subCategories` list.
In a chart whose entries all refer to objects, for every reference `s` that is an
object, in that list or not, the call returns without a TypeError, the category then
holds an entry for `s` with the value `v`, and the series holds the rectangle of every
entry of the category whose share is positive (the category total and the subcategory
total being positive), so also the one of `s`. -/
theorem setSubCategoryValue_object_reference (px : PixelSize) (c : Chart) (i : Nat)
    (s : Ref) (v : ℚ) (hi : i < c.categories.length) :
    (∀ (l : List Ref) (arg : Raw.Argument),
      Raw.setSubCategoryValue px { c.toRaw with subCategories := l } i arg v =
        { chart := { (Raw.setSubCategoryValue px c.toRaw i arg v).chart with
                      subCategories := l }
          typeError := (Raw.setSubCategoryValue px c.toRaw i arg v).typeError }) ∧
    Raw.setSubCategoryValue px c.toRaw i (Raw.Argument.object s) v =
      { chart := (setSubCategoryValue px c i s v).toRaw, typeError := false } ∧
    (∃ (cat : Raw.Category) (k : Nat) (e : Raw.SubCategoryValue),
      (Raw.setSubCategoryValue px c.toRaw i (Raw.Argument.object s) v).chart.categories[i]? =
        some cat ∧
      cat.subCategories[k]? = some e ∧ e.subCategory = Raw.Argument.object s ∧
      e.value = v) ∧
    (∀ (cat : Category) (k : Nat) (e : SubCategoryValue),
      (Raw.setSubCategoryValue px c.toRaw i (Raw.Argument.object s) v).chart.categories[i]? =
        some cat.toRaw →
      cat.subCategories[k]? = some e →
      sumCategoryValues (setSubCategoryValue px c i s v).categories > 0 →
      sumSubCategoryValues cat > 0 →
      relativeSubCategoryValue (sumSubCategoryValues cat) e > 0 →
      Raw.Figure.styled
          { dimensions := rectangleDimensions c.margin px
              (xPosAt c.heap c.margin px
                (sumCategoryValues (setSubCategoryValue px c i s v).categories)
                (setSubCategoryValue px c i s v).categories i)
              (yPosAt c.heap c.margin px
                (xPosAt c.heap c.margin px
                  (sumCategoryValues (setSubCategoryValue px c i s v).categories)
                  (setSubCategoryValue px c i s v).categories i)
                (sumCategoryValues (setSubCategoryValue px c i s v).categories) cat k)
              (relativeCategoryValue
                (sumCategoryValues (setSubCategoryValue px c i s v).categories) cat)
              (relativeSubCategoryValue (sumSubCategoryValues cat) e)
            fillStyle := c.heap[e.subCategory]? } ∈
        (Raw.setSubCategoryValue px c.toRaw i (Raw.Argument.object s) v).chart.rectangles) := by
  have hsim := raw_setSubCategoryValue_toRaw px c i s v
  obtain ⟨cat0, hcat0⟩ : ∃ cat0, c.categories[i]? = some cat0 :=
    ⟨c.categories[i], List.getElem?_eq_getElem hi⟩
  have hcat : (setSubCategoryValue px c i s v).categories[i]? =
      some (Category.setSubCategoryValue s v c.uiElements cat0) := by
    rw [setSubCategoryValue_categories, getElem?_modifyAt_self, hcat0]
    rfl
  refine ⟨fun l arg => rfl, hsim, ?_, ?_⟩
  · obtain ⟨k, e, hk, hes, hev⟩ :=
      setSubCategoryValueList_holds s v c.uiElements cat0.subCategories
    refine ⟨(Category.setSubCategoryValue s v c.uiElements cat0).toRaw, k, e.toRaw, ?_, ?_,
      ?_, hev⟩
    · rw [hsim]
      simp only [Chart.toRaw, List.getElem?_map, hcat, Option.map_some']
    · have hk' : (Category.setSubCategoryValue s v c.uiElements cat0).subCategories[k]? =
          some e := hk
      simp only [Category.toRaw, List.getElem?_map, hk', Option.map_some']
    · simp only [SubCategoryValue.toRaw, hes]
  · intro cat k e hraw he hS hT hrel
    rw [hsim] at hraw ⊢
    simp only [Chart.toRaw, List.getElem?_map, hcat, Option.map_some',
      Option.some.injEq] at hraw
    have hinj : Category.setSubCategoryValue s v c.uiElements cat0 = cat := by
      have hname := congrArg Raw.Category.name hraw
      have hvalue := congrArg Raw.Category.value hraw
      have htick := congrArg Raw.Category.tick hraw
      have hsubs := congrArg Raw.Category.subCategories hraw
      simp only [Category.toRaw] at hname hvalue htick hsubs
      have hsubs' : (Category.setSubCategoryValue s v c.uiElements cat0).subCategories =
          cat.subCategories := by
        apply List.map_injective_iff.mpr _ hsubs
        intro a b hab
        have h1 := congrArg Raw.SubCategoryValue.subCategory hab
        have h2 := congrArg Raw.SubCategoryValue.value hab
        have h3 := congrArg Raw.SubCategoryValue.label hab
        simp only [SubCategoryValue.toRaw, Raw.Argument.object.injEq] at h1 h2 h3
        cases a; cases b
        simp_all
      cases hc : Category.setSubCategoryValue s v c.uiElements cat0
      cases cat
      simp_all
    have hmem := figure_mem_updateChart c.heap c.margin px
      (setSubCategoryValue px c i s v).categories i k cat e (by rw [hcat, hinj]) he hS hT hrel
    have hrect : (setSubCategoryValue px c i s v).toRaw.rectangles =
        (_updateChart c.heap c.margin px (setSubCategoryValue px c i s v).categories).map
          Raw.Figure.styled := rfl
    rw [hrect]
    exact List.mem_map_of_mem _ hmem

theorem setSubCategoryValue_object_reference_witness :
    0 < foreignChart.categories.length ∧
      (Raw.setSubCategoryValue examplePx foreignChart.toRaw 0
        (Raw.Argument.object 0) 5).typeError = false ∧
      Raw.Figure.styled
          { dimensions := { x := 0 + 4 * (1 / 10), y := 0 + 4 * (1 / 10),
                            width := 100 - 2 * 4 * (1 / 10),
                            height := 100 - 2 * 4 * (1 / 10) }
            fillStyle := some 7 } ∈
        (Raw.setSubCategoryValue examplePx foreignChart.toRaw 0
          (Raw.Argument.object 0) 5).chart.rectangles := by
  have hi : 0 < foreignChart.categories.length := by
    simp [foreignChart, mosaicChart, modifyAt]
  have h := setSubCategoryValue_object_reference examplePx foreignChart 0 0 5 hi
  refine ⟨hi, by rw [h.2.1], ?_⟩
  have hfig := h.2.2.2
    { name := "A", value := 1, tick := 0, subCategories := [⟨0, 5, 1⟩] } 0 ⟨0, 5, 1⟩
    (by
      rw [h.2.1]
      simp [Chart.toRaw, foreignChart, mosaicChart, modifyAt, Category.setValue,
        Category.setSubCategoryValue, setSubCategoryValueList, findExisting, assignExisting,
        Category.toRaw])
    (by simp)
    (by
      norm_num [foreignChart, mosaicChart, modifyAt, Category.setValue,
        Category.setSubCategoryValue, setSubCategoryValueList, findExisting, assignExisting,
        sumCategoryValues])
    (by norm_num [sumSubCategoryValues])
    (by norm_num [sumSubCategoryValues, relativeSubCategoryValue])
  have hdims : rectangleDimensions foreignChart.margin examplePx
      (xPosAt foreignChart.heap foreignChart.margin examplePx
        (sumCategoryValues (setSubCategoryValue examplePx foreignChart 0 0 5).categories)
        (setSubCategoryValue examplePx foreignChart 0 0 5).categories 0)
      (yPosAt foreignChart.heap foreignChart.margin examplePx
        (xPosAt foreignChart.heap foreignChart.margin examplePx
          (sumCategoryValues (setSubCategoryValue examplePx foreignChart 0 0 5).categories)
          (setSubCategoryValue examplePx foreignChart 0 0 5).categories 0)
        (sumCategoryValues (setSubCategoryValue examplePx foreignChart 0 0 5).categories)
        { name := "A", value := 1, tick := 0, subCategories := [⟨0, 5, 1⟩] } 0)
      (relativeCategoryValue
        (sumCategoryValues (setSubCategoryValue examplePx foreignChart 0 0 5).categories)
        { name := "A", value := 1, tick := 0, subCategories := [⟨0, 5, 1⟩] })
      (relativeSubCategoryValue
        (sumSubCategoryValues
          { name := "A", value := 1, tick := 0, subCategories := [⟨0, 5, 1⟩] }) ⟨0, 5, 1⟩) =
      { x := 0 + 4 * (1 / 10), y := 0 + 4 * (1 / 10), width := 100 - 2 * 4 * (1 / 10),
        height := 100 - 2 * 4 * (1 / 10) } := by
    simp only [xPosAt_eq, yPosAt_eq]
    norm_num [foreignChart, mosaicChart, modifyAt, Category.setValue,
      Category.setSubCategoryValue, setSubCategoryValueList, findExisting, assignExisting,
      sumCategoryValues, sumSubCategoryValues, relativeCategoryValue,
      relativeSubCategoryValue, rectangleDimensions, examplePx]
  have hfill : foreignChart.heap[(⟨0, 5, 1⟩ : SubCategoryValue).subCategory]? = some 7 := by
    simp [foreignChart, mosaicChart]
  rw [hdims, hfill] at hfig
  exact hfig

/-! ## The series is the full layout when the caller keeps to its own objects -/

/-- C9 as stated fails: `foreignDrawn` is reached through the public operations and draws
the object 0, which another chart created; `setFillStyle` on that object gives it the
fill style 9 and runs the `_updateChart` of the other chart, so the series of this chart
keeps the rectangle with fill style 7, while `_updateChart` from the current categories
computes it with fill style 9. -/
theorem foreign_restyle_counterexample :
    Raw.ReachableByAnyCall examplePx foreignDrawn ∧
      (0 : Ref) ∉ foreignDrawn.subCategories ∧
      ((Raw.Operation.setFillStyle 0 9).apply examplePx foreignDrawn).chart.rectangles =
        [ Raw.Figure.styled
            { dimensions := { x := 0 + 4 * (1 / 10), y := 0 + 4 * (1 / 10),
                              width := 100 - 2 * 4 * (1 / 10),
                              height := 100 - 2 * 4 * (1 / 10) }
              fillStyle := some 7 } ] ∧
      Raw._updateChart
          ((Raw.Operation.setFillStyle 0 9).apply examplePx foreignDrawn).chart.heap
          ((Raw.Operation.setFillStyle 0 9).apply examplePx foreignDrawn).chart.margin
          examplePx
          ((Raw.Operation.setFillStyle 0 9).apply examplePx foreignDrawn).chart.categories =
        ([ Raw.Figure.styled
            { dimensions := { x := 0 + 4 * (1 / 10), y := 0 + 4 * (1 / 10),
                              width := 100 - 2 * 4 * (1 / 10),
                              height := 100 - 2 * 4 * (1 / 10) }
              fillStyle := some 9 } ], false) ∧
      Raw._updateChart
          ((Raw.Operation.setFillStyle 0 9).apply examplePx foreignDrawn).chart.heap
          ((Raw.Operation.setFillStyle 0 9).apply examplePx foreignDrawn).chart.margin
          examplePx
          ((Raw.Operation.setFillStyle 0 9).apply examplePx foreignDrawn).chart.categories ≠
        (((Raw.Operation.setFillStyle 0 9).apply examplePx foreignDrawn).chart.rectangles,
          false) := by
  have hstored :
      ((Raw.Operation.setFillStyle 0 9).apply examplePx foreignDrawn).chart.rectangles =
        [ Raw.Figure.styled
            { dimensions := { x := 0 + 4 * (1 / 10), y := 0 + 4 * (1 / 10),
                              width := 100 - 2 * 4 * (1 / 10),
                              height := 100 - 2 * 4 * (1 / 10) }
              fillStyle := some 7 } ] := by
    norm_num [foreignDrawn, Raw.Operation.apply, Raw.setFillStyle, Raw.setSubCategoryValue,
      Raw.setCategoryValue, Raw.Chart.refresh, Raw.addCategory, Raw.mosaicChart,
      Raw._updateChart, Raw.categoryLoop, Raw.categoryStep, Raw.subCategoryLoop,
      Raw.subCategoryStep, Raw.sumCategoryValues, Raw.sumSubCategoryValues,
      Raw.Category.setSubCategoryValue, Raw.Category.setValue, Raw.setSubCategoryValueList,
      Raw.findExisting, Raw.assignExisting, modifyAt, rectangleDimensions, examplePx]
  have hfresh :
      Raw._updateChart
          ((Raw.Operation.setFillStyle 0 9).apply examplePx foreignDrawn).chart.heap
          ((Raw.Operation.setFillStyle 0 9).apply examplePx foreignDrawn).chart.margin
          examplePx
          ((Raw.Operation.setFillStyle 0 9).apply examplePx foreignDrawn).chart.categories =
        ([ Raw.Figure.styled
            { dimensions := { x := 0 + 4 * (1 / 10), y := 0 + 4 * (1 / 10),
                              width := 100 - 2 * 4 * (1 / 10),
                              height := 100 - 2 * 4 * (1 / 10) }
              fillStyle := some 9 } ], false) := by
    norm_num [foreignDrawn, Raw.Operation.apply, Raw.setFillStyle, Raw.setSubCategoryValue,
      Raw.setCategoryValue, Raw.Chart.refresh, Raw.addCategory, Raw.mosaicChart,
      Raw._updateChart, Raw.categoryLoop, Raw.categoryStep, Raw.subCategoryLoop,
      Raw.subCategoryStep, Raw.sumCategoryValues, Raw.sumSubCategoryValues,
      Raw.Category.setSubCategoryValue, Raw.Category.setValue, Raw.setSubCategoryValueList,
      Raw.findExisting, Raw.assignExisting, modifyAt, rectangleDimensions, examplePx]
  refine ⟨?_, ?_, hstored, hfresh, ?_⟩
  · exact Raw.ReachableByAnyCall.step _ _
      (Raw.ReachableByAnyCall.step _ _
        (Raw.ReachableByAnyCall.step _ _ (Raw.ReachableByAnyCall.init [7])))
  · norm_num [foreignDrawn, Raw.Operation.apply, Raw.setSubCategoryValue,
      Raw.setCategoryValue, Raw.Chart.refresh, Raw.addCategory, Raw.mosaicChart]
  · rw [hfresh, hstored]
    simp

/-- C9 (amended): with fixed pixel sizes, as long as every `subCategory` argument is an
object that exists (not `undefined` or `null`) and `setFillStyle` is only called on
objects that `addSubCategory` of this chart returned, every public operation returns
without a TypeError and leaves a rectangle series that is what `_updateChart` computes
from scratch from the current categories; this includes the three add operations, which
do not call `_updateChart`. -/
theorem rectangles_full_layout_on_own_objects (px : PixelSize) (c : Raw.Chart)
    (op : Raw.Operation) (h : Raw.Reachable px c) (hop : op.admissible c = true) :
    (op.apply px c).typeError = false ∧
      Raw._updateChart (op.apply px c).chart.heap (op.apply px c).chart.margin px
          (op.apply px c).chart.categories =
        ((op.apply px c).chart.rectangles, false) := by
  obtain ⟨b, hb, rfl⟩ := raw_reachable_toRaw px c h
  obtain ⟨op0, rfl⟩ := raw_admissible_is_object _ op hop
  rw [raw_admissible_toRaw] at hop
  rw [raw_apply_toRaw]
  refine ⟨rfl, ?_⟩
  have hinv := (reachable_invariant px (op0.apply px b) (Reachable.step b op0 hb hop)).1
  unfold UpToDate at hinv
  show Raw._updateChart (op0.apply px b).heap (op0.apply px b).margin px
      ((op0.apply px b).categories.map Category.toRaw) =
    ((op0.apply px b).rectangles.map Raw.Figure.styled, false)
  rw [raw_updateChart_toRaw, ← hinv]

theorem rectangles_full_layout_on_own_objects_witness :
    Raw.Reachable examplePx ownDrawn ∧
      (Raw.Operation.addCategory "B").admissible ownDrawn = true ∧
      ((Raw.Operation.addCategory "B").apply examplePx ownDrawn).typeError = false ∧
      Raw._updateChart ((Raw.Operation.addCategory "B").apply examplePx ownDrawn).chart.heap
          ((Raw.Operation.addCategory "B").apply examplePx ownDrawn).chart.margin examplePx
          ((Raw.Operation.addCategory "B").apply examplePx ownDrawn).chart.categories =
        (((Raw.Operation.addCategory "B").apply examplePx ownDrawn).chart.rectangles, false) ∧
      ((Raw.Operation.addCategory "B").apply examplePx ownDrawn).chart.rectangles =
        [ Raw.Figure.styled
            { dimensions := { x := 0 + 4 * (1 / 10), y := 0 + 4 * (1 / 10),
                              width := 100 - 2 * 4 * (1 / 10),
                              height := 100 - 2 * 4 * (1 / 10) }
              fillStyle := some seriesFill } ] := by
  have hreach : Raw.Reachable examplePx ownDrawn :=
    Raw.Reachable.step _ _
      (Raw.Reachable.step _ _
        (Raw.Reachable.step _ _
          (Raw.Reachable.step _ _ (Raw.Reachable.init []) rfl) rfl) rfl) rfl
  have h := rectangles_full_layout_on_own_objects examplePx ownDrawn
    (Raw.Operation.addCategory "B") hreach rfl
  refine ⟨hreach, rfl, h.1, h.2, ?_⟩
  norm_num [ownDrawn, Raw.Operation.apply, Raw.setSubCategoryValue,
    Raw.setCategoryValue, Raw.Chart.refresh, Raw.addCategory, Raw.addSubCategory,
    Raw.mosaicChart, Raw._updateChart, Raw.categoryLoop, Raw.categoryStep,
    Raw.subCategoryLoop, Raw.subCategoryStep, Raw.sumCategoryValues,
    Raw.sumSubCategoryValues, Raw.Category.setSubCategoryValue, Raw.Category.setValue,
    Raw.setSubCategoryValueList, Raw.findExisting, Raw.assignExisting, modifyAt,
    rectangleDimensions, examplePx, seriesFill]

end MosaicChart
